import Mathlib

/-!
Verification development for the veneer-lead-agent pipeline.

Python strings are shallowly embedded as `List Char` (ASCII-faithful for the
inputs of interest; `str.lower` is modelled on the basic latin range, which is
the only range the source manipulates).  Pure functions of the source become
Lean functions; the external collaborators (CrewAI crews, HTTP fetch,
BeautifulSoup) are passed in as explicit oracle parameters where a claim
needs the surrounding control flow.
-/

set_option maxRecDepth 8192

namespace Veneer

/-- A Python string, embedded as its list of characters. -/
abbrev Str := List Char

/-- Coerce a Lean string literal to the embedded string type. -/
def pys (s : String) : Str := s.toList

/-! ## Python `str` primitives -/

/-- The characters Python's default `str.strip()` removes. -/
def isWsChar (c : Char) : Bool :=
  c = ' ' || c = '\t' || c = '\n' || c = '\r' || c = Char.ofNat 11 || c = Char.ofNat 12

/-- Strip characters satisfying `p` from the left end (`str.lstrip`). -/
def pyLstripP (p : Char → Bool) (l : Str) : Str := l.dropWhile p

/-- Strip characters satisfying `p` from the right end (`str.rstrip`). -/
def pyRstripP (p : Char → Bool) (l : Str) : Str := (l.reverse.dropWhile p).reverse

/-- Python `str.strip()` (no argument): whitespace from both ends. -/
def pyStrip (l : Str) : Str := pyRstripP isWsChar (pyLstripP isWsChar l)

/-- Python `str.strip(chars)`: strip any of the given characters from both ends. -/
def pyStripChars (cs : List Char) (l : Str) : Str :=
  pyRstripP (fun c => c ∈ cs) (pyLstripP (fun c => c ∈ cs) l)

/-- ASCII lower-casing of one character, as Python `str.lower` acts on
the basic latin range. -/
def asciiLowerChar (c : Char) : Char :=
  if 65 ≤ c.toNat ∧ c.toNat ≤ 90 then Char.ofNat (c.toNat + 32) else c

/-- ASCII upper-casing of one character (for `str.upper`). -/
def asciiUpperChar (c : Char) : Char :=
  if 97 ≤ c.toNat ∧ c.toNat ≤ 122 then Char.ofNat (c.toNat - 32) else c

/-- Python `str.lower()` on the ASCII range. -/
def pyLower (l : Str) : Str := l.map asciiLowerChar

/-- Python `str.upper()` on the ASCII range. -/
def pyUpper (l : Str) : Str := l.map asciiUpperChar

/-- Python `s.startswith(pat)`. -/
def pyStartsWith (l pat : Str) : Bool := pat.isPrefixOf l

/-- Python `s.endswith(pat)`. -/
def pyEndsWith (l pat : Str) : Bool := pat.isSuffixOf l

/-- Python `sub in s` (substring containment). -/
def pyContains (l sub : Str) : Bool :=
  match l with
  | [] => sub.isPrefixOf []
  | _ :: t => sub.isPrefixOf l || pyContains t sub

/-- Recursion core of `pyReplaceDel`; the fuel bounds the number of scanning
steps and is instantiated with the input length, which always suffices. -/
def pyReplaceDelAux (pat : Str) : Nat → Str → Str
  | 0, l => l
  | _ + 1, [] => []
  | fuel + 1, c :: t =>
    if pat ≠ [] ∧ pat.isPrefixOf (c :: t) then
      pyReplaceDelAux pat fuel ((c :: t).drop pat.length)
    else
      c :: pyReplaceDelAux pat fuel t

/-- Python `s.replace(pat, "")` for a non-empty `pat`: delete every
(leftmost, non-overlapping) occurrence of `pat`. -/
def pyReplaceDel (pat : Str) (l : Str) : Str := pyReplaceDelAux pat l.length l

/-- Python `s.split(sep, 1)[1]` when `sep` occurs (used for stripping the
"FINAL ANSWER:" prefix, splitting at the first `:`); returns `none` when the
separator is absent. -/
def pySplitOnceAfter (sep : Char) : Str → Option Str
  | [] => none
  | c :: t => if c = sep then some t else pySplitOnceAfter sep t

/-! ## Character-level lemmas -/

theorem toNat_ofNat_small (n : Nat) (h : n < 0xD800) : (Char.ofNat n).toNat = n := by
  have hv : Nat.isValidChar n := Or.inl h
  simp [Char.ofNat, hv, Char.ofNatAux, Char.toNat, UInt32.ofNat', UInt32.toNat, BitVec.ofNatLt]

theorem asciiLowerChar_idem (c : Char) :
    asciiLowerChar (asciiLowerChar c) = asciiLowerChar c := by
  unfold asciiLowerChar
  by_cases h : 65 ≤ c.toNat ∧ c.toNat ≤ 90
  · have h2 : (Char.ofNat (c.toNat + 32)).toNat = c.toNat + 32 := by
      apply toNat_ofNat_small; omega
    simp [h, h2]
    omega
  · simp [h]

theorem mem_pyLstripP {p : Char → Bool} {l : Str} {c : Char}
    (h : c ∈ pyLstripP p l) : c ∈ l :=
  (List.dropWhile_sublist p (l := l)).mem h

theorem mem_pyRstripP {p : Char → Bool} {l : Str} {c : Char}
    (h : c ∈ pyRstripP p l) : c ∈ l := by
  unfold pyRstripP at h
  rw [List.mem_reverse] at h
  exact List.mem_reverse.mp ((List.dropWhile_sublist p (l := l.reverse)).mem h)

theorem mem_pyStrip {l : Str} {c : Char} (h : c ∈ pyStrip l) : c ∈ l :=
  mem_pyLstripP (mem_pyRstripP h)

theorem mem_pyReplaceDelAux {pat : Str} {c : Char} :
    ∀ (fuel : Nat) (l : Str), c ∈ pyReplaceDelAux pat fuel l → c ∈ l := by
  intro fuel
  induction fuel with
  | zero => intro l h; exact h
  | succ n ih =>
    intro l h
    match l with
    | [] => rw [pyReplaceDelAux] at h; exact h
    | a :: t =>
      rw [pyReplaceDelAux] at h
      by_cases hc : pat ≠ [] ∧ pat.isPrefixOf (a :: t)
      · rw [if_pos hc] at h
        exact List.mem_of_mem_drop (ih _ h)
      · rw [if_neg hc] at h
        rcases List.mem_cons.mp h with h | h
        · simp [h]
        · exact List.mem_cons_of_mem _ (ih _ h)

theorem mem_pyReplaceDel {pat l : Str} {c : Char}
    (h : c ∈ pyReplaceDel pat l) : c ∈ l :=
  mem_pyReplaceDelAux _ _ h

theorem map_eq_self_of_fixed {f : Char → Char} {l : Str}
    (h : ∀ c ∈ l, f c = c) : l.map f = l := by
  induction l with
  | nil => rfl
  | cons a t ih =>
    rw [List.map_cons, h a (List.mem_cons_self a t),
      ih fun c hc => h c (List.mem_cons_of_mem _ hc)]

theorem dropWhile_idem (p : Char → Bool) (l : Str) :
    (l.dropWhile p).dropWhile p = l.dropWhile p := by
  induction l with
  | nil => rfl
  | cons a t ih =>
    by_cases h : p a
    · simpa [List.dropWhile, h] using ih
    · simp [List.dropWhile, h]

theorem pyRstripP_idem (p : Char → Bool) (l : Str) :
    pyRstripP p (pyRstripP p l) = pyRstripP p l := by
  unfold pyRstripP
  rw [List.reverse_reverse, dropWhile_idem]

/-! ## Website normalization (agent_runner.py line 177)

`normalized_website = company_website.strip().lower().replace('www.','').rstrip('/')` -/

/-- The run-scoped website normalization performed by
`run_lead_generation_process` before deduplication. -/
def normalized_website (w : Str) : Str :=
  pyRstripP (fun c => c = '/') (pyReplaceDel (pys "www.") (pyLower (pyStrip w)))

/-- Every character of the normalized website is fixed by lower-casing:
the characters survive from `pyLower` and `asciiLowerChar` is idempotent. -/
theorem normalized_website_lower_fixed (w : Str) :
    pyLower (normalized_website w) = normalized_website w := by
  apply map_eq_self_of_fixed
  intro c hc
  have hc1 : c ∈ pyReplaceDel (pys "www.") (pyLower (pyStrip w)) := mem_pyRstripP hc
  have hc2 : c ∈ pyLower (pyStrip w) := mem_pyReplaceDel hc1
  rcases List.mem_map.mp hc2 with ⟨a, _, rfl⟩
  exact asciiLowerChar_idem a

/-- **C4 (counterexample).** Website normalization as implemented is *not*
idempotent: on `"www. a"`, deleting the `"www."` occurrence exposes a leading
space that only the second pass's `strip()` removes, so
`normalize (normalize "www. a") ≠ normalize "www. a"`. -/
theorem normalized_website_not_idempotent :
    normalized_website (normalized_website (pys "www. a")) ≠
      normalized_website (pys "www. a") := by decide

/-- **C4 (amended).** Website normalization (strip whitespace, lower-case,
delete every `"www."` occurrence, strip trailing slashes) is idempotent on
every input whose normal form is already whitespace-stripped and free of
further `"www."` occurrences (the two effects a second pass could have), and
`normalize "WWW.Foo.com/" = normalize "foo.com"` holds as stated. -/
theorem normalized_website_idempotent_of_fixed (w : Str)
    (h1 : pyStrip (normalized_website w) = normalized_website w)
    (h2 : pyReplaceDel (pys "www.") (normalized_website w) = normalized_website w) :
    normalized_website (normalized_website w) = normalized_website w ∧
      normalized_website (pys "WWW.Foo.com/") = normalized_website (pys "foo.com") := by
  constructor
  · show pyRstripP _ (pyReplaceDel _ (pyLower (pyStrip (normalized_website w)))) = _
    rw [h1, normalized_website_lower_fixed, h2]
    exact pyRstripP_idem _ _
  · decide

/-- Witness for the amended C4 theorem at `w = "WWW.Foo.com/"`. -/
theorem normalized_website_idempotent_witness :
    normalized_website (normalized_website (pys "WWW.Foo.com/")) =
      normalized_website (pys "WWW.Foo.com/") :=
  (normalized_website_idempotent_of_fixed (pys "WWW.Foo.com/")
    (by decide) (by decide)).1

/-! ## Enrichment stage: `analyze_company` (company_extractor.py lines 190-216)

In the source file the body of `analyze_company` ends right after the
initialization of `final_company_data` (line 216): the module-level
`def _fallback_list_parser` at line 218 terminates the function body, and the
rest of the intended logic (lines 245-379) sits *inside*
`_fallback_list_parser` after its `return rows` (line 243), where it is
unreachable.  `analyze_company` therefore has no `return` statement and yields
Python `None` on every input. -/

/-- The lead-record dictionary shape produced by enrichment / the
orchestrator. -/
structure LeadData where
  name : Str
  website : Str
  pain_points : Str
  contact_email : Str
  segment_name_internal : Str
  category : Str
  source_url : Str := []
deriving DecidableEq, Repr

/-- `analyze_company` as the source executes it: build `final_company_data`
(lines 209-216), then fall off the end of the (truncated) body, returning
`None`. -/
def analyze_company (company_name company_website : Str)
    (segment_name : Str) : Option LeadData :=
  let final_company_data : LeadData :=
    { name := company_name
      website := company_website
      pain_points := pys "Initial analysis did not run"
      contact_email := []
      segment_name_internal := segment_name
      category := segment_name }
  let _ := final_company_data
  none

/-- **C1.** `analyze_company` as written returns `None` for every input: the
function body is truncated at line 216 by the module-level definition of
`_fallback_list_parser`, so it never returns the initialized record, contrary
to the specified contract that it always returns a mapping with `name`,
`website`, `pain_points` and `contact_email` keys. -/
theorem analyze_company_always_none :
    ∀ (company_name company_website segment_name : Str),
      analyze_company company_name company_website segment_name = none :=
  fun _ _ _ => rfl

/-! ## Orchestrator candidate loop (agent_runner.py lines 169-216) -/

/-- `Config.GENERIC_COMPANY_NAMES` (config.py lines 57-60). -/
def GENERIC_COMPANY_NAMES : List Str :=
  [pys "company", pys "organization", pys "the firm", pys "client",
   pys "example", pys "test", pys "none", pys "n/a", pys "website", pys "url"]

/-- One candidate entry consumed by the orchestrator:
`company_dict.get('name')` / `company_dict.get('website')`
(`none` models an absent key). -/
structure CandidateRecord where
  name : Option Str
  website : Option Str
deriving DecidableEq, Repr

/-- Run-scoped mutable state of `run_lead_generation_process`: the dedup set
and the accumulated output list. -/
structure RunState where
  processed_websites_this_run : List Str
  all_processed_companies : List LeadData
deriving DecidableEq, Repr

/-- One iteration of the inner candidate loop of
`run_lead_generation_process` (agent_runner.py lines 169-216): skip entries
with missing/empty name or website, skip duplicated normalized websites, skip
generic names, then record the normalized website and append the result of
`analyze_company` (or the placeholder record when it returns `None`). -/
def process_company (segment_name target_url : Str) (st : RunState)
    (company_dict : CandidateRecord) : RunState :=
  match company_dict.name, company_dict.website with
  | some company_name, some company_website =>
    if company_name = [] ∨ company_website = [] then st
    else
      let normalized := normalized_website company_website
      if normalized ∈ st.processed_websites_this_run then st
      else if pyLower company_name ∈ GENERIC_COMPANY_NAMES then st
      else
        let st1 : RunState :=
          { st with processed_websites_this_run :=
              normalized :: st.processed_websites_this_run }
        match analyze_company company_name company_website segment_name with
        | some d =>
          { st1 with all_processed_companies := st1.all_processed_companies ++
              [{ d with source_url := target_url,
                        segment_name_internal := segment_name,
                        category := segment_name }] }
        | none =>
          { st1 with all_processed_companies := st1.all_processed_companies ++
              [{ name := company_name, website := company_website,
                 pain_points := pys "Critical: Analysis function returned no data",
                 contact_email := [], source_url := target_url,
                 category := segment_name, segment_name_internal := segment_name }] }
  | _, _ => st

/-- The candidate loop over one URL's extraction output. -/
def process_companies (segment_name target_url : Str) (st : RunState)
    (cands : List CandidateRecord) : RunState :=
  cands.foldl (process_company segment_name target_url) st

/-- A run starts with an empty dedup set and an empty output list. -/
def runStart : RunState := ⟨[], []⟩

theorem process_company_processed_mono (seg url : Str) (st : RunState)
    (c : CandidateRecord) :
    st.processed_websites_this_run ⊆
      (process_company seg url st c).processed_websites_this_run := by
  unfold process_company
  rcases c with ⟨name, website⟩
  match name, website with
  | none, _ => simp
  | some nm, none => simp
  | some nm, some ws =>
    simp only
    split
    · exact fun x hx => hx
    · split
      · exact fun x hx => hx
      · split
        · exact fun x hx => hx
        · simp only [analyze_company]
          exact fun x hx => List.mem_cons_of_mem _ hx

theorem process_companies_processed_mono (seg url : Str) (st : RunState)
    (l : List CandidateRecord) :
    st.processed_websites_this_run ⊆
      (process_companies seg url st l).processed_websites_this_run := by
  induction l generalizing st with
  | nil => exact fun x hx => hx
  | cons c t ih =>
    intro x hx
    exact ih _ (process_company_processed_mono seg url st c hx)

/-- The invariant carried through the candidate loop: every output record's
normalized website is registered in the dedup set, and those normalized
websites are pairwise distinct. -/
def DedupInv (st : RunState) : Prop :=
  (∀ r ∈ st.all_processed_companies,
      normalized_website r.website ∈ st.processed_websites_this_run) ∧
  (st.all_processed_companies.map
      (fun r => normalized_website r.website)).Nodup

theorem process_company_dedupInv (seg url : Str) (st : RunState)
    (c : CandidateRecord) (h : DedupInv st) :
    DedupInv (process_company seg url st c) := by
  unfold process_company
  rcases c with ⟨name, website⟩
  match name, website with
  | none, _ => exact h
  | some nm, none => exact h
  | some nm, some ws =>
    simp only
    split
    · exact h
    · split
      · exact h
      · split
        · exact h
        · rename_i hempty hseen hgen
          simp only [analyze_company]
          constructor
          · intro r hr
            rcases List.mem_append.mp hr with hr | hr
            · exact List.mem_cons_of_mem _ (h.1 r hr)
            · simp only [List.mem_singleton] at hr
              subst hr
              simp
          · rw [List.map_append, List.nodup_append]
            refine ⟨h.2, by simp, ?_⟩
            intro x hx
            simp only [List.map_cons, List.map_nil, List.mem_singleton]
            intro hx2
            rcases List.mem_map.mp hx with ⟨r, hr, rfl⟩
            exact hseen (hx2 ▸ h.1 r hr)

theorem process_companies_dedupInv (seg url : Str) (st : RunState)
    (l : List CandidateRecord) (h : DedupInv st) :
    DedupInv (process_companies seg url st l) := by
  induction l generalizing st with
  | nil => exact h
  | cons c t ih => exact ih _ (process_company_dedupInv seg url st c h)

/-- If a candidate has valid fields and a non-generic name, then after
processing it (in any state) its normalized website is registered. -/
theorem process_company_registers (seg url : Str) (st : RunState)
    {nm ws : Str} (hn : ¬(nm = [] ∨ ws = []))
    (hg : pyLower nm ∉ GENERIC_COMPANY_NAMES) :
    normalized_website ws ∈
      (process_company seg url st ⟨some nm, some ws⟩).processed_websites_this_run := by
  unfold process_company
  simp only
  rw [if_neg hn]
  by_cases hseen : normalized_website ws ∈ st.processed_websites_this_run
  · rw [if_pos hseen]; exact hseen
  · rw [if_neg hseen, if_neg hg]
    simp [analyze_company]

/-- If every valid, non-generic candidate's normalized website is already in
the dedup set, the loop step is the identity. -/
theorem process_company_id_of_seen (seg url : Str) (st : RunState)
    (c : CandidateRecord)
    (h : ∀ nm ws, c.name = some nm → c.website = some ws →
      ¬(nm = [] ∨ ws = []) → pyLower nm ∉ GENERIC_COMPANY_NAMES →
      normalized_website ws ∈ st.processed_websites_this_run) :
    process_company seg url st c = st := by
  unfold process_company
  rcases c with ⟨name, website⟩
  match name, website with
  | none, _ => rfl
  | some nm, none => rfl
  | some nm, some ws =>
    simp only
    by_cases hempty : nm = [] ∨ ws = []
    · rw [if_pos hempty]
    · rw [if_neg hempty]
      by_cases hseen : normalized_website ws ∈ st.processed_websites_this_run
      · rw [if_pos hseen]
      · rw [if_neg hseen]
        by_cases hgen : pyLower nm ∈ GENERIC_COMPANY_NAMES
        · rw [if_pos hgen]
        · exact absurd (h nm ws rfl rfl hempty hgen) hseen

/-- After processing a list that contains the candidate, every valid
non-generic candidate of the list is registered in the dedup set. -/
theorem process_companies_registers (seg url : Str) (st : RunState)
    (l : List CandidateRecord) {nm ws : Str} (hc : (⟨some nm, some ws⟩ : CandidateRecord) ∈ l)
    (hn : ¬(nm = [] ∨ ws = [])) (hg : pyLower nm ∉ GENERIC_COMPANY_NAMES) :
    normalized_website ws ∈
      (process_companies seg url st l).processed_websites_this_run := by
  induction l generalizing st with
  | nil => cases hc
  | cons c t ih =>
    rcases List.mem_cons.mp hc with hc | hc
    · subst hc
      exact process_companies_processed_mono seg url _ t
        (process_company_registers seg url st hn hg)
    · exact ih _ hc

/-- **C5.** Run-scoped deduplication: starting from a fresh run state, (i) the
accumulated output list never contains two records with equal normalized
websites, and (ii) processing the same candidate list twice is the same as
processing it once — in particular the output length is stable. -/
theorem run_dedup_invariant (seg url : Str) (l : List CandidateRecord) :
    ((process_companies seg url runStart l).all_processed_companies.map
        (fun r => normalized_website r.website)).Nodup ∧
    process_companies seg url runStart (l ++ l) =
      process_companies seg url runStart l := by
  constructor
  · exact (process_companies_dedupInv seg url runStart l
      ⟨(fun r hr => nomatch hr), List.nodup_nil⟩).2
  · show (l ++ l).foldl _ _ = _
    rw [List.foldl_append]
    have hfix : ∀ (t : List CandidateRecord), (∀ c ∈ t, c ∈ l) →
        t.foldl (process_company seg url) (process_companies seg url runStart l) =
          process_companies seg url runStart l := by
      intro t
      induction t with
      | nil => intro _; rfl
      | cons c t ih =>
        intro hsub
        rw [List.foldl_cons, process_company_id_of_seen, ih]
        · exact fun c' hc' => hsub c' (List.mem_cons_of_mem _ hc')
        · intro nm ws hnm hws hn hg
          have : (⟨some nm, some ws⟩ : CandidateRecord) ∈ l := by
            have := hsub c (List.mem_cons_self c t)
            rcases c with ⟨cn, cw⟩
            cases hnm; cases hws
            exact this
          exact process_companies_registers seg url runStart l this hn hg
    exact hfix l (fun c hc => hc)

/-! ## API cache (utils/api_cache.py)

The cache is keyed by a deterministic digest of the call signature; the digest
itself (`_generate_key`, an `md5` of the joined argument reprs) is an external
primitive, so the model works directly with the resulting key string.  Python
`None` is `Option.none` of the value type; `APICache.get` returns `None` both
for an absent/expired key and for a stored `None` value, exactly as the
source does.  Wall-clock time (`time.time()`) is passed explicitly. -/

/-- One stored entry `{value, timestamp}` keyed by the digest. -/
structure CacheEntry (V : Type) where
  value : Option V
  timestamp : Nat
deriving DecidableEq, Repr

/-- The in-memory store of an `APICache` plus its TTL. -/
structure APICacheState (V : Type) where
  cache : List (Str × CacheEntry V)
  ttl_seconds : Nat
deriving DecidableEq, Repr

/-- Dictionary lookup `self.cache[key]` / `key in self.cache`. -/
def cacheLookup {V : Type} (entries : List (Str × CacheEntry V)) (key : Str) :
    Option (CacheEntry V) :=
  match entries with
  | [] => none
  | (k, e) :: t => if k = key then some e else cacheLookup t key

/-- `del self.cache[key]`. -/
def cacheDelete {V : Type} (entries : List (Str × CacheEntry V)) (key : Str) :
    List (Str × CacheEntry V) :=
  match entries with
  | [] => []
  | (k, e) :: t => if k = key then t else (k, e) :: cacheDelete t key

/-- `self.cache[key] = {...}` (replace or insert). -/
def cacheStore {V : Type} (entries : List (Str × CacheEntry V)) (key : Str)
    (e : CacheEntry V) : List (Str × CacheEntry V) :=
  match entries with
  | [] => [(key, e)]
  | (k, e0) :: t =>
    if k = key then (k, e) :: t else (k, e0) :: cacheStore t key e

/-- `APICache.get` (api_cache.py lines 65-88): `None` on a miss; an expired
entry (`now - timestamp > ttl`) is deleted lazily and reported as a miss;
otherwise the stored value — which may itself be `None` — is returned. -/
def APICache_get {V : Type} (st : APICacheState V) (key : Str) (now : Nat) :
    Option V × APICacheState V :=
  match cacheLookup st.cache key with
  | none => (none, st)
  | some entry =>
    if st.ttl_seconds < now - entry.timestamp then
      (none, { st with cache := cacheDelete st.cache key })
    else
      (entry.value, st)

/-- `APICache.set` (api_cache.py lines 90-102). -/
def APICache_set {V : Type} (st : APICacheState V) (key : Str) (value : Option V)
    (now : Nat) : APICacheState V :=
  { st with cache := cacheStore st.cache key ⟨value, now⟩ }

/-- The wrapper built by `APICache.cached` / `cached_api_call` (api_cache.py
lines 119-133 and 152-166): consult the cache, serve a non-`None` hit,
otherwise invoke the wrapped function and store its result.  The boolean
records whether the wrapped function was invoked. -/
def cached_wrapper {V : Type} (st : APICacheState V) (key : Str)
    (func : Unit → Option V) (now : Nat) :
    Option V × APICacheState V × Bool :=
  match (APICache_get st key now).1 with
  | some v => (some v, (APICache_get st key now).2, false)
  | none =>
    let result := func ()
    (result, APICache_set (APICache_get st key now).2 key result now, true)

/-- **C10.** A cached `None` is stored but never served: (i) whenever the
wrapped function is invoked and returns `None`, the `None` entry is written
to the cache; (ii) a stored `None` entry within its TTL is treated as a
miss — the wrapped function is invoked again and its fresh result returned;
(iii) a stored non-`None` value within its TTL is served without invoking
the wrapped function. -/
theorem cached_none_never_served {V : Type} (st : APICacheState V) (key : Str)
    (func : Unit → Option V) (now ts : Nat) (v : V) :
    ((cached_wrapper st key func now).2.2 = true → func () = none →
      cacheLookup (cached_wrapper st key func now).2.1.cache key =
        some ⟨none, now⟩) ∧
    (cacheLookup st.cache key = some ⟨none, ts⟩ → now - ts ≤ st.ttl_seconds →
      (cached_wrapper st key func now).2.2 = true ∧
      (cached_wrapper st key func now).1 = func ()) ∧
    (cacheLookup st.cache key = some ⟨some v, ts⟩ → now - ts ≤ st.ttl_seconds →
      (cached_wrapper st key func now).2.2 = false ∧
      (cached_wrapper st key func now).1 = some v) := by
  have store_lookup : ∀ (entries : List (Str × CacheEntry V)) (e : CacheEntry V),
      cacheLookup (cacheStore entries key e) key = some e := by
    intro entries e
    induction entries with
    | nil => simp [cacheStore, cacheLookup]
    | cons h t ih =>
      rcases h with ⟨k, e0⟩
      by_cases hk : k = key
      · simp [cacheStore, cacheLookup, hk]
      · simp [cacheStore, cacheLookup, hk, ih]
  refine ⟨?_, ?_, ?_⟩
  · intro hinv hf
    rcases hr : (APICache_get st key now).1 with _ | v0
    · unfold cached_wrapper
      rw [hr]
      simp only [hf, APICache_set]
      exact store_lookup _ _
    · exfalso
      unfold cached_wrapper at hinv
      rw [hr] at hinv
      cases hinv
  · intro hlk httl
    simp only [cached_wrapper, APICache_get, hlk,
      if_neg (show ¬ st.ttl_seconds < now - ts by omega)]
    exact ⟨trivial, trivial⟩
  · intro hlk httl
    simp only [cached_wrapper, APICache_get, hlk,
      if_neg (show ¬ st.ttl_seconds < now - ts by omega)]
    exact ⟨trivial, trivial⟩

/-- Witness for C10 at a concrete cache state: a stored `None` for key `"k"`
at timestamp 0, TTL 10, queried at time 5 with a function returning `None`. -/
theorem cached_none_never_served_witness :
    (cached_wrapper (V := Nat) ⟨[(pys "k", ⟨none, 0⟩)], 10⟩ (pys "k")
        (fun _ => none) 5).2.2 = true ∧
    cacheLookup (cached_wrapper (V := Nat) ⟨[(pys "k", ⟨none, 0⟩)], 10⟩ (pys "k")
        (fun _ => none) 5).2.1.cache (pys "k") = some ⟨none, 5⟩ := by
  refine ⟨?_, ?_⟩
  · exact ((cached_none_never_served ⟨[(pys "k", ⟨none, 0⟩)], 10⟩ (pys "k")
      (fun _ => none) 5 0 0).2.1 (by decide) (by decide)).1
  · exact (cached_none_never_served ⟨[(pys "k", ⟨none, 0⟩)], 10⟩ (pys "k")
      (fun _ => none) 5 0 0).1
      (((cached_none_never_served ⟨[(pys "k", ⟨none, 0⟩)], 10⟩ (pys "k")
        (fun _ => none) 5 0 0).2.1 (by decide) (by decide)).1) rfl

/-! ## Retry-with-backoff (utils/error_handler.py lines 12-51,
utils/logging_utils.py lines 49-92)

The two modules define the same decorator (the logging variant only adds the
function name to its log lines); one model covers both.  The wrapped
function's behaviour is an oracle `f : Nat -> CallOutcome` giving the outcome
of its `i`-th invocation; `time.sleep` is recorded in a trace of slept
durations. -/

/-- Outcome of one Python call: a returned value or a raised exception
carrying its message `str(e)`. -/
inductive CallOutcome (V : Type) where
  | ok (v : V)
  | exn (msg : Str)
deriving DecidableEq, Repr

/-- The retry classification heuristic:
`"rate limit" in str(e).lower() or "timeout" in str(e).lower()`. -/
def isRetriable (msg : Str) : Bool :=
  pyContains (pyLower msg) (pys "rate limit") || pyContains (pyLower msg) (pys "timeout")

/-- The `while mtries > 1` loop of the `retry` decorator, with the final
attempt after the loop.  Arguments mirror the locals `mtries` and `mdelay`;
`i` counts the invocations made so far.  Returns the overall outcome (a value
or the propagated exception) and the list of slept delays in order. -/
def retryFrom {V : Type} (f : Nat → CallOutcome V) (backoff : Nat) :
    Nat → Nat → Nat → CallOutcome V × List Nat
  | 0, _, i => (f i, [])
  | 1, _, i => (f i, [])
  | mtries + 2, mdelay, i =>
    match f i with
    | .ok v => (.ok v, [])
    | .exn e =>
      if isRetriable e then
        let rest := retryFrom f backoff (mtries + 1) (mdelay * backoff) (i + 1)
        (rest.1, mdelay :: rest.2)
      else (.exn e, [])

/-- The `retry(max_attempts, delay, backoff)` wrapper applied to a call whose
successive invocation outcomes are given by `f`. -/
def retry_call {V : Type} (max_attempts delay backoff : Nat)
    (f : Nat → CallOutcome V) : CallOutcome V × List Nat :=
  retryFrom f backoff max_attempts delay 0

theorem retryFrom_success {V : Type} (f : Nat → CallOutcome V) (backoff : Nat)
    (v : V) :
    ∀ (N mtries mdelay i : Nat),
      (∀ j < N, ∃ m, f (i + j) = .exn m ∧ isRetriable m = true) →
      f (i + N) = .ok v → N < mtries →
      retryFrom f backoff mtries mdelay i =
        (.ok v, (List.range N).map (fun j => mdelay * backoff ^ j)) := by
  intro N
  induction N with
  | zero =>
    intro mtries mdelay i _ hok hlt
    match mtries, hlt with
    | 1, _ => simp only [retryFrom]; rw [show i + 0 = i from rfl] at hok; rw [hok]; rfl
    | m + 2, _ =>
      rw [show i + 0 = i from rfl] at hok
      simp only [retryFrom, hok]
      rfl
  | succ N ih =>
    intro mtries mdelay i hfail hok hlt
    match mtries, hlt with
    | m + 2, _ =>
      rcases hfail 0 (Nat.succ_pos N) with ⟨msg, hmsg, hret⟩
      rw [show i + 0 = i from rfl] at hmsg
      have hrec := ih (m + 1) (mdelay * backoff) (i + 1)
        (fun j hj => by
          rcases hfail (j + 1) (by omega) with ⟨m2, hm2, hr2⟩
          exact ⟨m2, by rw [show i + 1 + j = i + (j + 1) by omega]; exact hm2, hr2⟩)
        (by rw [show i + 1 + N = i + (N + 1) by omega]; exact hok)
        (by omega)
      have hlist : (List.range (N + 1)).map (fun j => mdelay * backoff ^ j) =
          mdelay :: (List.range N).map (fun j => mdelay * backoff * backoff ^ j) := by
        rw [List.range_succ_eq_map, List.map_cons, List.map_map]
        simp only [pow_zero, mul_one]
        congr 1
        apply List.map_congr_left
        intro j _
        simp only [Function.comp_apply]
        rw [pow_succ]
        ring
      simp only [retryFrom, hmsg, hret, if_true, hrec, hlist]

theorem retryFrom_nonretriable {V : Type} (f : Nat → CallOutcome V)
    (backoff : Nat) (m0 : Str) :
    ∀ (mtries mdelay i : Nat), f i = .exn m0 → isRetriable m0 = false →
      retryFrom f backoff mtries mdelay i = (.exn m0, []) := by
  intro mtries mdelay i hexn hret
  match mtries with
  | 0 => simp only [retryFrom, hexn]
  | 1 => simp only [retryFrom, hexn]
  | m + 2 => simp only [retryFrom, hexn, hret]; rfl

theorem retryFrom_exhaust {V : Type} (f : Nat → CallOutcome V) (backoff : Nat)
    (msgs : Nat → Str) :
    ∀ (mtries mdelay i : Nat), 1 ≤ mtries →
      (∀ j < mtries, f (i + j) = .exn (msgs (i + j)) ∧ isRetriable (msgs (i + j)) = true) →
      (retryFrom f backoff mtries mdelay i).1 = .exn (msgs (i + (mtries - 1))) ∧
      (retryFrom f backoff mtries mdelay i).2.length = mtries - 1 := by
  intro mtries
  induction mtries with
  | zero => intro _ _ h; omega
  | succ m ih =>
    intro mdelay i _ hfail
    match m with
    | 0 =>
      rcases hfail 0 (by omega) with ⟨hexn, _⟩
      rw [show i + 0 = i from rfl] at hexn
      simp only [retryFrom, hexn]
      exact ⟨rfl, rfl⟩
    | m' + 1 =>
      rcases hfail 0 (by omega) with ⟨hexn, hret⟩
      rw [show i + 0 = i from rfl] at hexn hret
      have hrec := ih (mdelay * backoff) (i + 1) (by omega)
        (fun j hj => by
          rcases hfail (j + 1) (by omega) with ⟨h1, h2⟩
          rw [show i + 1 + j = i + (j + 1) by omega]
          exact ⟨h1, h2⟩)
      simp only [retryFrom, hexn, hret, if_true]
      refine ⟨?_, ?_⟩
      · rw [hrec.1]
        congr 1
        congr 1
        omega
      · simp only [List.length_cons, hrec.2]
        omega

/-- **C8.** The retry wrapper: (i) a call that raises a retry-classified
exception on its first `N` invocations and succeeds on invocation `N`
returns the success value within an attempt budget `> N`, sleeping exactly
the delays `delay * backoff ^ 0, ..., delay * backoff ^ (N-1)` in order, and
those delays are strictly increasing whenever `delay > 0` and `backoff > 1`
(in particular for the doubling default `backoff = 2`); (ii) a
non-retry-classified exception on the first invocation propagates
immediately with no sleeping; (iii) when every invocation within the budget
raises a retry-classified exception, the final attempt's exception
propagates after `max_attempts - 1` sleeps. -/
theorem retry_spec {V : Type} (max_attempts delay backoff N : Nat)
    (f : Nat → CallOutcome V) (v : V) (m0 : Str) (msgs : Nat → Str) :
    ((∀ j < N, ∃ m, f j = .exn m ∧ isRetriable m = true) → f N = .ok v →
      N < max_attempts →
      retry_call max_attempts delay backoff f =
        (.ok v, (List.range N).map (fun j => delay * backoff ^ j)) ∧
      (0 < delay → 1 < backoff →
        ((List.range N).map (fun j => delay * backoff ^ j)).Pairwise (· < ·))) ∧
    (f 0 = .exn m0 → isRetriable m0 = false →
      retry_call max_attempts delay backoff f = (.exn m0, [])) ∧
    (1 ≤ max_attempts →
      (∀ j < max_attempts, f j = .exn (msgs j) ∧ isRetriable (msgs j) = true) →
      (retry_call max_attempts delay backoff f).1 = .exn (msgs (max_attempts - 1)) ∧
      (retry_call max_attempts delay backoff f).2.length = max_attempts - 1) := by
  refine ⟨?_, ?_, ?_⟩
  · intro hfail hok hlt
    constructor
    · exact retryFrom_success f backoff v N max_attempts delay 0
        (fun j hj => by simpa using hfail j hj) (by simpa using hok) hlt
    · intro hd hb
      have : (List.range N).Pairwise (· < ·) := List.pairwise_lt_range N
      refine List.Pairwise.map _ ?_ this
      intro a b hab
      exact mul_lt_mul_of_pos_left (Nat.pow_lt_pow_right hb hab) hd
  · intro hexn hret
    exact retryFrom_nonretriable f backoff m0 max_attempts delay 0 hexn hret
  · intro hpos hfail
    have := retryFrom_exhaust f backoff msgs max_attempts delay 0 hpos
      (fun j hj => by simpa using hfail j hj)
    simpa using this

/-- Witness for C8 at a concrete oracle: two rate-limited failures followed
by a success, with the default budget `max_attempts = 3`, `delay = 2`,
`backoff = 2`. -/
theorem retry_spec_witness :
    retry_call 3 2 2
        (fun i => if i < 2 then CallOutcome.exn (V := Nat) (pys "Rate limit hit") else .ok 7) =
      (.ok 7, [2, 4]) := by
  have h := (retry_spec 3 2 2 2
      (fun i => if i < 2 then CallOutcome.exn (V := Nat) (pys "Rate limit hit") else .ok 7)
      7 [] (fun _ => [])).1
    (by
      intro j hj
      refine ⟨pys "Rate limit hit", ?_, by decide⟩
      simp [hj])
    (by simp) (by omega)
  rw [h.1]
  rfl

/-! ## Search-stage TLD filter (url_processor.py lines 68-131)

`perform_search` filters the parsed URL list through a denylist of
country-code TLDs.  `urllib.parse.urlparse(url).hostname` is modelled as a
total function (authority present only after a `"//"`, userinfo and port
stripped, lower-cased, `none` when empty): the source's `except` branch that
conservatively keeps a URL on a parsing error coincides with the
`hostname = none` branch here. -/

/-- `disallowed_country_tlds` (url_processor.py lines 69-87), verbatim. -/
def disallowed_country_tlds : List Str :=
  [
   pys ".ac", pys ".ad", pys ".ae", pys ".af", pys ".ag", pys ".ai", pys ".al", pys ".am",
   pys ".an", pys ".ao", pys ".aq", pys ".ar", pys ".as", pys ".at", pys ".au", pys ".aw",
   pys ".ax", pys ".az", pys ".ba", pys ".bb", pys ".bd", pys ".be", pys ".bf", pys ".bg",
   pys ".bh", pys ".bi", pys ".bj", pys ".bm", pys ".bn", pys ".bo", pys ".br", pys ".bs",
   pys ".bt", pys ".bv", pys ".bw", pys ".by", pys ".bz", pys ".ca", pys ".cc", pys ".cd",
   pys ".cf", pys ".cg", pys ".ch", pys ".ci", pys ".ck", pys ".cl", pys ".cm", pys ".cn",
   pys ".co", pys ".cr", pys ".cu", pys ".cv", pys ".cx", pys ".cy", pys ".cz", pys ".de",
   pys ".dj", pys ".dk", pys ".dm", pys ".do", pys ".dz", pys ".ec", pys ".ee", pys ".eg",
   pys ".er", pys ".es", pys ".et", pys ".eu", pys ".fi", pys ".fj", pys ".fk", pys ".fm",
   pys ".fo", pys ".fr", pys ".ga", pys ".gb", pys ".gd", pys ".ge", pys ".gf", pys ".gg",
   pys ".gh", pys ".gi", pys ".gl", pys ".gm", pys ".gn", pys ".gp", pys ".gq", pys ".gr",
   pys ".gs", pys ".gt", pys ".gu", pys ".gw", pys ".gy", pys ".hk", pys ".hm", pys ".hn",
   pys ".hr", pys ".ht", pys ".hu", pys ".id", pys ".ie", pys ".il", pys ".im", pys ".in",
   pys ".io", pys ".iq", pys ".ir", pys ".is", pys ".it", pys ".je", pys ".jm", pys ".jo",
   pys ".jp", pys ".ke", pys ".kg", pys ".kh", pys ".ki", pys ".km", pys ".kn", pys ".kp",
   pys ".kr", pys ".kw", pys ".ky", pys ".kz", pys ".la", pys ".lb", pys ".lc", pys ".li",
   pys ".lk", pys ".lr", pys ".ls", pys ".lt", pys ".lu", pys ".lv", pys ".ly", pys ".ma",
   pys ".mc", pys ".md", pys ".me", pys ".mg", pys ".mh", pys ".mk", pys ".ml", pys ".mm",
   pys ".mn", pys ".mo", pys ".mp", pys ".mq", pys ".mr", pys ".ms", pys ".mt", pys ".mu",
   pys ".mv", pys ".mw", pys ".mx", pys ".my", pys ".mz", pys ".na", pys ".nc", pys ".ne",
   pys ".nf", pys ".ng", pys ".ni", pys ".nl", pys ".no", pys ".np", pys ".nr", pys ".nu",
   pys ".nz", pys ".om", pys ".pa", pys ".pe", pys ".pf", pys ".pg", pys ".ph", pys ".pk",
   pys ".pl", pys ".pm", pys ".pn", pys ".pr", pys ".ps", pys ".pt", pys ".pw", pys ".py",
   pys ".qa", pys ".re", pys ".ro", pys ".rs", pys ".ru", pys ".rw", pys ".sa", pys ".sb",
   pys ".sc", pys ".sd", pys ".se", pys ".sg", pys ".sh", pys ".si", pys ".sj", pys ".sk",
   pys ".sl", pys ".sm", pys ".sn", pys ".so", pys ".sr", pys ".st", pys ".sv", pys ".sy",
   pys ".sz", pys ".tc", pys ".td", pys ".tf", pys ".tg", pys ".th", pys ".tj", pys ".tk",
   pys ".tl", pys ".tm", pys ".tn", pys ".to", pys ".tp", pys ".tr", pys ".tt", pys ".tv",
   pys ".tw", pys ".tz", pys ".ua", pys ".ug", pys ".uk", pys ".uy", pys ".uz", pys ".va",
   pys ".vc", pys ".ve", pys ".vg", pys ".vi", pys ".vn", pys ".vu", pys ".wf", pys ".ws",
   pys ".ye", pys ".yt", pys ".za", pys ".zm", pys ".zw"
  ]

/-- `netloc.rpartition('@')[2]`: the part after the last `'@'`. -/
def afterLastAt (l : Str) : Str := (l.reverse.takeWhile (fun c => c != '@')).reverse

/-- Strip the port (or the IPv6 brackets) from the host info, as
`urlparse(...)._hostinfo` does. -/
def hostFromHostinfo (hi : Str) : Str :=
  match hi with
  | '[' :: rest => rest.takeWhile (fun c => c != ']')
  | _ => hi.takeWhile (fun c => c != ':')

/-- The suffix following the first occurrence of `"://"`, if any. -/
def afterSchemeSep : Str → Option Str
  | [] => none
  | c :: t =>
    if (pys "://").isPrefixOf (c :: t) then some ((c :: t).drop 3)
    else afterSchemeSep t

/-- Model of `urllib.parse.urlparse(url).hostname`. -/
def urlparse_hostname (u : Str) : Option Str :=
  let netlocStart :=
    if (pys "//").isPrefixOf u then some (u.drop 2) else afterSchemeSep u
  match netlocStart with
  | none => none
  | some rest =>
    let netloc := rest.takeWhile (fun c => c != '/' && c != '?' && c != '#')
    let host := pyLower (hostFromHostinfo (afterLastAt netloc))
    if host = [] then none else some host

/-- Python `str.split(sep)` for a single-character separator. -/
def splitOnChar (sep : Char) : Str → List Str
  | [] => [[]]
  | c :: t =>
    if c = sep then [] :: splitOnChar sep t
    else
      match splitOnChar sep t with
      | [] => [[c]]
      | h :: r => (c :: h) :: r

/-- `is_disallowed` for one URL (url_processor.py lines 91-119): no check
fires unless the hostname has at least two dot-separated labels; the final
label is checked against the denylist, and with at least three labels the
final two labels are checked as a compound suffix. -/
def url_tld_disallowed (url_str : Str) : Bool :=
  match urlparse_hostname url_str with
  | none => false
  | some hostname =>
    let domain_parts := splitOnChar '.' (pyLower hostname)
    if 2 ≤ domain_parts.length then
      match domain_parts.reverse with
      | [] => false
      | last :: rest =>
        if ('.' :: last) ∈ disallowed_country_tlds then true
        else if 3 ≤ domain_parts.length then
          match rest with
          | second :: _ =>
            (('.' :: second) ++ ('.' :: last)) ∈ disallowed_country_tlds
          | [] => false
        else false
    else false

/-- The claim's exclusion condition, worded from the spec: the hostname's
final label, or its final two labels, match the denylist. -/
def final_label_denylisted (url_str : Str) : Bool :=
  match urlparse_hostname url_str with
  | none => false
  | some hostname =>
    match (splitOnChar '.' (pyLower hostname)).reverse with
    | [] => false
    | last :: rest =>
      (('.' :: last) ∈ disallowed_country_tlds) ||
      (match rest with
       | second :: _ =>
         (('.' :: second) ++ ('.' :: last)) ∈ disallowed_country_tlds
       | [] => false)

/-- Number of dot-separated labels of the URL's hostname (0 when absent). -/
def numLabels (url_str : Str) : Nat :=
  match urlparse_hostname url_str with
  | none => 0
  | some hostname => (splitOnChar '.' (pyLower hostname)).length

/-- The filtering loop over the parsed URL list (lines 89-126). -/
def tld_filter (url_list : List Str) : List Str :=
  url_list.filter (fun u => !url_tld_disallowed u)

/-- **C7 (counterexample).** A URL whose hostname is the single label `uk`
has a denylisted final label (`".uk"`), yet the filter retains it, because
the source only applies the check to hostnames with at least two labels. -/
theorem tld_filter_single_label_kept :
    final_label_denylisted (pys "http://uk") = true ∧
      tld_filter [pys "http://uk"] = [pys "http://uk"] := by decide

/-- Every denylist entry is a single leading dot followed by letters, so a
two-label compound suffix (which contains a second dot) never matches. -/
theorem compound_not_in_denylist (second last : Str) :
    (('.' :: second) ++ ('.' :: last)) ∉ disallowed_country_tlds := by
  intro hmem
  have hall : ∀ e ∈ disallowed_country_tlds, '.' ∉ e.drop 1 := by decide
  apply hall _ hmem
  show '.' ∈ (('.' :: second) ++ ('.' :: last)).drop 1
  rw [List.cons_append, List.drop_succ_cons, List.drop_zero]
  exact List.mem_append.mpr (Or.inr (List.mem_cons_self _ _))

theorem url_tld_disallowed_iff (u : Str) :
    url_tld_disallowed u = true ↔
      final_label_denylisted u = true ∧ 2 ≤ numLabels u := by
  unfold url_tld_disallowed final_label_denylisted numLabels
  match hh : urlparse_hostname u with
  | none => simp
  | some hostname =>
    simp only
    match hrev : (splitOnChar '.' (pyLower hostname)).reverse with
    | [] =>
      have h0 : (splitOnChar '.' (pyLower hostname)).length = 0 := by
        rw [← List.length_reverse, hrev]; rfl
      simp [h0]
    | last :: rest =>
      by_cases hlen : 2 ≤ (splitOnChar '.' (pyLower hostname)).length
      · rw [if_pos hlen]
        by_cases hlast : ('.' :: last) ∈ disallowed_country_tlds
        · simp [hlast, hlen]
        · simp only [hlast, if_false, Bool.false_or]
          match rest with
          | second :: rest2 =>
            have hcomp := compound_not_in_denylist second last
            by_cases h3 : 3 ≤ (splitOnChar '.' (pyLower hostname)).length
            · simp [h3, hcomp, hlen, List.cons_append]
            · simp [h3, hlen]
              rw [← List.cons_append]
              exact hcomp
          | [] =>
            have h1 : (splitOnChar '.' (pyLower hostname)).length = 1 := by
              rw [← List.length_reverse, hrev]; rfl
            omega
      · rw [if_neg hlen]
        simp [hlen]

/-- **C7 (amended).** A URL from the parsed list survives the TLD filter iff
it is not excluded, and exclusion happens exactly when the hostname parses,
has at least **two** dot-separated labels, and its final label or final two
labels match the denylist; single-label hostnames (and URLs without a
parseable hostname) are always retained. -/
theorem tld_filter_amended (url_list : List Str) (u : Str) :
    u ∈ tld_filter url_list ↔
      u ∈ url_list ∧
        ¬(final_label_denylisted u = true ∧ 2 ≤ numLabels u) := by
  unfold tld_filter
  rw [List.mem_filter]
  constructor
  · rintro ⟨hu, hb⟩
    refine ⟨hu, fun hc => ?_⟩
    rw [(url_tld_disallowed_iff u).mpr hc] at hb
    cases hb
  · rintro ⟨hu, hc⟩
    refine ⟨hu, ?_⟩
    by_cases hd : url_tld_disallowed u = true
    · exact absurd ((url_tld_disallowed_iff u).mp hd) hc
    · simp [Bool.not_eq_true] at hd
      rw [hd]
      rfl

/-! ## Python values and the structured-data parsers

`json.loads` and `ast.literal_eval` are stdlib collaborators; they are
modelled here as total functions into an embedded Python value domain
(`Option` failure stands for the exception the source catches).  Numbers are
kept as their raw token (the pipeline never inspects numeric values, only
`isinstance(..., str/list/dict)` checks).  `ast.literal_eval` results that
are not lists/dicts/strings/numbers/booleans/None (tuples, sets) are mapped
to a parse failure; the callers only test `isinstance(x, list)`, so the
observable behaviour is identical. -/

/-- An embedded Python value. -/
inductive PyVal where
  | str (s : Str)
  | num (raw : Str)
  | bool (b : Bool)
  | none
  | list (items : List PyVal)
  | dict (entries : List (Str × PyVal))

/-- `isinstance(v, str)`. -/
def PyVal.isStr : PyVal → Bool
  | .str _ => true
  | _ => false

/-- Python `dict.get`: the last binding of a duplicated key wins. -/
def dictGet (entries : List (Str × PyVal)) (key : Str) : Option PyVal :=
  match entries.reverse.find? (fun e => e.1 = key) with
  | Option.some e => Option.some e.2
  | Option.none => Option.none

/-- JSON insignificant whitespace. -/
def isJsonWs (c : Char) : Bool := c = ' ' || c = '\t' || c = '\n' || c = '\r'

/-- ASCII decimal digit. -/
def isDigitChar (c : Char) : Bool := 48 ≤ c.toNat && c.toNat ≤ 57

/-- ASCII letter. -/
def isAlphaChar (c : Char) : Bool :=
  (65 ≤ c.toNat && c.toNat ≤ 90) || (97 ≤ c.toNat && c.toNat ≤ 122)

def skipJsonWs (l : Str) : Str := l.dropWhile isJsonWs

/-- Decode one string-literal escape character. -/
def decodeEscape (c : Char) : Option Char :=
  if c = '"' then Option.some '"'
  else if c = Char.ofNat 92 then Option.some (Char.ofNat 92)
  else if c = '/' then Option.some '/'
  else if c = 'n' then Option.some '\n'
  else if c = 't' then Option.some '\t'
  else if c = 'r' then Option.some '\r'
  else if c = 'b' then Option.some (Char.ofNat 8)
  else if c = 'f' then Option.some (Char.ofNat 12)
  else if c = Char.ofNat 39 then Option.some (Char.ofNat 39)
  else Option.none

def hexDigitVal (c : Char) : Option Nat :=
  if isDigitChar c then Option.some (c.toNat - 48)
  else if 97 ≤ c.toNat && c.toNat ≤ 102 then Option.some (c.toNat - 97 + 10)
  else if 65 ≤ c.toNat && c.toNat ≤ 70 then Option.some (c.toNat - 65 + 10)
  else Option.none

/-- Scan a quoted string body (after the opening quote `q`) up to the closing
quote, decoding escapes; structural on the input. -/
def scanQuoted (q : Char) (acc : Str) : Str → Option (Str × Str)
  | [] => Option.none
  | c :: rest =>
    if c = q then Option.some (acc.reverse, rest)
    else if c = Char.ofNat 92 then
      match rest with
      | 'u' :: a :: b :: c2 :: d :: rest2 =>
        match hexDigitVal a, hexDigitVal b, hexDigitVal c2, hexDigitVal d with
        | Option.some va, Option.some vb, Option.some vc, Option.some vd =>
          scanQuoted q (Char.ofNat (((va * 16 + vb) * 16 + vc) * 16 + vd) :: acc) rest2
        | _, _, _, _ => Option.none
      | e :: rest2 =>
        match decodeEscape e with
        | Option.some ch => scanQuoted q (ch :: acc) rest2
        | Option.none => Option.none
      | [] => Option.none
    else scanQuoted q (c :: acc) rest

/-- Scan a numeric token `digits [. digits] [eE [+-] digits]` after an
optional sign already consumed; returns the raw token. -/
def scanNumTail (l : Str) : Option (Str × Str) :=
  let (ds, r1) := (l.takeWhile isDigitChar, l.dropWhile isDigitChar)
  if ds = [] then Option.none
  else
    let (frac, r2) :=
      match r1 with
      | '.' :: r => ('.' :: r.takeWhile isDigitChar, r.dropWhile isDigitChar)
      | _ => ([], r1)
    let (ex, r3) :=
      match r2 with
      | c :: r =>
        if c = 'e' || c = 'E' then
          match r with
          | s :: r' =>
            if s = '+' || s = '-' then
              (c :: s :: r'.takeWhile isDigitChar, r'.dropWhile isDigitChar)
            else (c :: r.takeWhile isDigitChar, r.dropWhile isDigitChar)
          | [] => ([c], [])
        else ([], r2)
      | [] => ([], r2)
    Option.some (ds ++ frac ++ ex, r3)

mutual

/-- One step of the JSON value grammar, structural on `fuel`. -/
def jsonVal (fuel : Nat) (l : Str) : Option (PyVal × Str) :=
  match fuel with
  | 0 => Option.none
  | fuel + 1 =>
    match skipJsonWs l with
    | 'n' :: 'u' :: 'l' :: 'l' :: r => Option.some (.none, r)
    | 't' :: 'r' :: 'u' :: 'e' :: r => Option.some (.bool true, r)
    | 'f' :: 'a' :: 'l' :: 's' :: 'e' :: r => Option.some (.bool false, r)
    | '"' :: r =>
      match scanQuoted '"' [] r with
      | Option.some (s, r') => Option.some (.str s, r')
      | Option.none => Option.none
    | '[' :: r => jsonArr fuel (skipJsonWs r) []
    | '{' :: r => jsonObj fuel (skipJsonWs r) []
    | '-' :: r =>
      match scanNumTail r with
      | Option.some (tok, r') => Option.some (.num ('-' :: tok), r')
      | Option.none => Option.none
    | c :: r =>
      if isDigitChar c then
        match scanNumTail (c :: r) with
        | Option.some (tok, r') => Option.some (.num tok, r')
        | Option.none => Option.none
      else Option.none
    | [] => Option.none

/-- Array elements after `[`, structural on `fuel`. -/
def jsonArr (fuel : Nat) (l : Str) (acc : List PyVal) : Option (PyVal × Str) :=
  match fuel with
  | 0 => Option.none
  | fuel + 1 =>
    match l with
    | ']' :: r =>
      match acc with
      | [] => Option.some (.list [], r)
      | _ => Option.none
    | _ =>
      match jsonVal fuel l with
      | Option.none => Option.none
      | Option.some (v, r) =>
        match skipJsonWs r with
        | ',' :: r' => jsonArr fuel (skipJsonWs r') (v :: acc)
        | ']' :: r' => Option.some (.list (v :: acc).reverse, r')
        | _ => Option.none

/-- Object members after `{`, structural on `fuel`. -/
def jsonObj (fuel : Nat) (l : Str) (acc : List (Str × PyVal)) :
    Option (PyVal × Str) :=
  match fuel with
  | 0 => Option.none
  | fuel + 1 =>
    match l with
    | '}' :: r =>
      match acc with
      | [] => Option.some (.dict [], r)
      | _ => Option.none
    | '"' :: r =>
      match scanQuoted '"' [] r with
      | Option.none => Option.none
      | Option.some (key, r1) =>
        match skipJsonWs r1 with
        | ':' :: r2 =>
          match jsonVal fuel (skipJsonWs r2) with
          | Option.none => Option.none
          | Option.some (v, r3) =>
            match skipJsonWs r3 with
            | ',' :: r4 =>
              match skipJsonWs r4 with
              | '"' :: _ => jsonObj fuel (skipJsonWs r4) ((key, v) :: acc)
              | _ => Option.none
            | '}' :: r4 => Option.some (.dict ((key, v) :: acc).reverse, r4)
            | _ => Option.none
        | _ => Option.none
    | _ => Option.none

end

/-- Model of `json.loads`: parse one value and require only whitespace to
follow; `none` models the raised `JSONDecodeError`. -/
def json_loads (l : Str) : Option PyVal :=
  match jsonVal (l.length + 2) l with
  | Option.some (v, rest) =>
    if skipJsonWs rest = [] then Option.some v else Option.none
  | Option.none => Option.none

mutual

/-- One step of the Python-literal grammar (strings with either quote,
`True`/`False`/`None`, signed numbers, lists, dicts), structural on `fuel`.
Tuples/sets are mapped to failure (see the section comment). -/
def litVal (fuel : Nat) (l : Str) : Option (PyVal × Str) :=
  match fuel with
  | 0 => Option.none
  | fuel + 1 =>
    match skipJsonWs l with
    | 'N' :: 'o' :: 'n' :: 'e' :: r => Option.some (.none, r)
    | 'T' :: 'r' :: 'u' :: 'e' :: r => Option.some (.bool true, r)
    | 'F' :: 'a' :: 'l' :: 's' :: 'e' :: r => Option.some (.bool false, r)
    | '"' :: r =>
      match scanQuoted '"' [] r with
      | Option.some (s, r') => Option.some (.str s, r')
      | Option.none => Option.none
    | '[' :: r => litArr fuel (skipJsonWs r) []
    | '{' :: r => litObj fuel (skipJsonWs r) []
    | '+' :: r =>
      match scanNumTail r with
      | Option.some (tok, r') => Option.some (.num tok, r')
      | Option.none => Option.none
    | '-' :: r =>
      match scanNumTail r with
      | Option.some (tok, r') => Option.some (.num ('-' :: tok), r')
      | Option.none => Option.none
    | c :: r =>
      if c = Char.ofNat 39 then
        match scanQuoted (Char.ofNat 39) [] r with
        | Option.some (s, r') => Option.some (.str s, r')
        | Option.none => Option.none
      else if isDigitChar c then
        match scanNumTail (c :: r) with
        | Option.some (tok, r') => Option.some (.num tok, r')
        | Option.none => Option.none
      else Option.none
    | [] => Option.none

/-- List elements of a Python literal list (trailing comma allowed). -/
def litArr (fuel : Nat) (l : Str) (acc : List PyVal) : Option (PyVal × Str) :=
  match fuel with
  | 0 => Option.none
  | fuel + 1 =>
    match l with
    | ']' :: r => Option.some (.list acc.reverse, r)
    | _ =>
      match litVal fuel l with
      | Option.none => Option.none
      | Option.some (v, r) =>
        match skipJsonWs r with
        | ',' :: r' => litArr fuel (skipJsonWs r') (v :: acc)
        | ']' :: r' => Option.some (.list (v :: acc).reverse, r')
        | _ => Option.none

/-- Members of a Python literal dict (string keys; trailing comma allowed). -/
def litObj (fuel : Nat) (l : Str) (acc : List (Str × PyVal)) :
    Option (PyVal × Str) :=
  match fuel with
  | 0 => Option.none
  | fuel + 1 =>
    match l with
    | '}' :: r => Option.some (.dict acc.reverse, r)
    | _ =>
      match litVal fuel l with
      | Option.some (.str key, r1) =>
        match skipJsonWs r1 with
        | ':' :: r2 =>
          match litVal fuel (skipJsonWs r2) with
          | Option.none => Option.none
          | Option.some (v, r3) =>
            match skipJsonWs r3 with
            | ',' :: r4 => litObj fuel (skipJsonWs r4) ((key, v) :: acc)
            | '}' :: r4 => Option.some (.dict ((key, v) :: acc).reverse, r4)
            | _ => Option.none
        | _ => Option.none
      | _ => Option.none

end

/-- Model of `ast.literal_eval`; `none` models the raised exception. -/
def literal_eval (l : Str) : Option PyVal :=
  match litVal (l.length + 2) (pyStrip l) with
  | Option.some (v, rest) =>
    if skipJsonWs rest = [] then Option.some v else Option.none
  | Option.none => Option.none

/-! ## A small backtracking regex engine

The source leans on `re.findall` / `re.search` / `re.sub` with a fixed set of
patterns.  The engine below interprets a pattern AST over the embedded
strings with Python's ordering semantics (leftmost match; greedy quantifiers
prefer longer, lazy ones shorter; alternation prefers the left branch), with
the zero-width-iteration guard Python uses.  It is structural on a fuel
parameter that every concrete use instantiates generously; the generic
theorems in this file never depend on the engine's internals, only the
concrete evaluations do. -/

/-- Pattern AST.  `cls` carries the class predicate; `anyCh` is `.` (honours
DOTALL); `lineStart` is `^` (honours MULTILINE); `strEnd` is `\Z`. -/
inductive Rx where
  | eps
  | ch (c : Char)
  | cls (p : Char → Bool)
  | anyCh
  | seq (a b : Rx)
  | alt (a b : Rx)
  | opt (lazy : Bool) (a : Rx)
  | star (lazy : Bool) (a : Rx)
  | rep (lo : Nat) (hi : Option Nat) (lazy : Bool) (a : Rx)
  | grp (idx : Nat) (a : Rx)
  | wordb
  | lineStart
  | strEnd

/-- Sequence a list of patterns. -/
def rxseq (l : List Rx) : Rx := l.foldr .seq .eps

/-- Alternative of a non-empty list of patterns (left-preferring). -/
def rxalts : List Rx → Rx
  | [] => .cls (fun _ => false)
  | [r] => r
  | r :: t => .alt r (rxalts t)

/-- A literal string pattern. -/
def rxlit (s : String) : Rx := rxseq (s.toList.map .ch)

/-- Regex compilation flags of the `re` module that the source uses. -/
structure RxFlags where
  icase : Bool := false
  dotall : Bool := false
  multiline : Bool := false

/-- Character comparison for literals, honouring IGNORECASE. -/
def rxCharEq (fl : RxFlags) (pat c : Char) : Bool :=
  if fl.icase then asciiLowerChar pat = asciiLowerChar c else pat = c

/-- `\w` for the word-boundary test. -/
def isWordChar (c : Char) : Bool := isAlphaChar c || isDigitChar c || c = '_'

/-- Is position `pos` a `\b` boundary of `input`? -/
def atWordBoundary (input : Str) (pos : Nat) : Bool :=
  let before := match pos with
    | 0 => false
    | p + 1 => match input.get? p with
      | Option.some c => isWordChar c
      | Option.none => false
  let after := match input.get? pos with
    | Option.some c => isWordChar c
    | Option.none => false
  before != after

/-- Captured-group store: `(index, start, end)` triples, most recent first. -/
abbrev RxCaps := List (Nat × Nat × Nat)

/-- The backtracking matcher in continuation style.  `k` receives the end
position and captures of one way of matching `r` from `pos`; alternatives are
tried in Python's preference order until `k` succeeds. -/
def rxMatch (fl : RxFlags) (input : Str) :
    Nat → Rx → Nat → RxCaps →
    (Nat → RxCaps → Option (Nat × RxCaps)) → Option (Nat × RxCaps)
  | 0, _, _, _, _ => Option.none
  | fuel + 1, r, pos, caps, k =>
    match r with
    | .eps => k pos caps
    | .ch c =>
      match input.get? pos with
      | Option.some d => if rxCharEq fl c d then k (pos + 1) caps else Option.none
      | Option.none => Option.none
    | .cls p =>
      match input.get? pos with
      | Option.some d => if p d then k (pos + 1) caps else Option.none
      | Option.none => Option.none
    | .anyCh =>
      match input.get? pos with
      | Option.some d =>
        if fl.dotall || d != '\n' then k (pos + 1) caps else Option.none
      | Option.none => Option.none
    | .seq a b =>
      rxMatch fl input fuel a pos caps
        (fun p2 c2 => rxMatch fl input fuel b p2 c2 k)
    | .alt a b =>
      match rxMatch fl input fuel a pos caps k with
      | Option.some res => Option.some res
      | Option.none => rxMatch fl input fuel b pos caps k
    | .opt lz a =>
      if lz then
        match k pos caps with
        | Option.some res => Option.some res
        | Option.none => rxMatch fl input fuel a pos caps k
      else
        match rxMatch fl input fuel a pos caps k with
        | Option.some res => Option.some res
        | Option.none => k pos caps
    | .star lz a =>
      if lz then
        match k pos caps with
        | Option.some res => Option.some res
        | Option.none =>
          rxMatch fl input fuel a pos caps (fun p2 c2 =>
            if pos < p2 then rxMatch fl input fuel (.star lz a) p2 c2 k
            else Option.none)
      else
        match rxMatch fl input fuel a pos caps (fun p2 c2 =>
            if pos < p2 then rxMatch fl input fuel (.star lz a) p2 c2 k
            else Option.none) with
        | Option.some res => Option.some res
        | Option.none => k pos caps
    | .rep lo hi lz a =>
      match lo with
      | l + 1 =>
        rxMatch fl input fuel a pos caps (fun p2 c2 =>
          rxMatch fl input fuel (.rep l (hi.map (· - 1)) lz a) p2 c2 k)
      | 0 =>
        match hi with
        | Option.some 0 => k pos caps
        | _ =>
          if lz then
            match k pos caps with
            | Option.some res => Option.some res
            | Option.none =>
              rxMatch fl input fuel a pos caps (fun p2 c2 =>
                if pos < p2 then
                  rxMatch fl input fuel (.rep 0 (hi.map (· - 1)) lz a) p2 c2 k
                else Option.none)
          else
            match rxMatch fl input fuel a pos caps (fun p2 c2 =>
                if pos < p2 then
                  rxMatch fl input fuel (.rep 0 (hi.map (· - 1)) lz a) p2 c2 k
                else Option.none) with
            | Option.some res => Option.some res
            | Option.none => k pos caps
    | .grp idx a =>
      rxMatch fl input fuel a pos caps (fun p2 c2 => k p2 ((idx, pos, p2) :: c2))
    | .wordb => if atWordBoundary input pos then k pos caps else Option.none
    | .lineStart =>
      if pos = 0 || (fl.multiline && input.get? (pos - 1) = Option.some '\n') then
        k pos caps
      else Option.none
    | .strEnd => if pos = input.length then k pos caps else Option.none

/-- Fuel that is ample for every pattern/input pair this file evaluates. -/
def rxFuel (input : Str) : Nat := 2000 * (input.length + 10)

/-- Scan left to right for the leftmost match start (Python `re.search`):
returns `(start, end, captures)`. -/
def rxSearchAux (fl : RxFlags) (input : Str) (r : Rx) :
    Nat → Nat → Option (Nat × Nat × RxCaps)
  | 0, _ => Option.none
  | rem + 1, pos =>
    match rxMatch fl input (rxFuel input) r pos []
        (fun p c => Option.some (p, c)) with
    | Option.some (e, caps) => Option.some (pos, e, caps)
    | Option.none =>
      if pos < input.length then rxSearchAux fl input r rem (pos + 1)
      else Option.none

def rxSearchFrom (fl : RxFlags) (input : Str) (r : Rx) (start : Nat) :
    Option (Nat × Nat × RxCaps) :=
  rxSearchAux fl input r (input.length + 1 - start) start

/-- The substring of `input` captured by group `idx` (empty when the group
did not participate, as `re.findall` reports it). -/
def capStr (input : Str) (caps : RxCaps) (idx : Nat) : Str :=
  match caps.find? (fun t => t.1 = idx) with
  | Option.some (_, s, e) => (input.drop s).take (e - s)
  | Option.none => []

/-- `re.findall` for a pattern without capturing groups: the whole matches,
non-overlapping, scanned left to right. -/
def rxFindAllAux (fl : RxFlags) (input : Str) (r : Rx) :
    Nat → Nat → List Str
  | 0, _ => []
  | rem + 1, pos =>
    match rxSearchFrom fl input r pos with
    | Option.none => []
    | Option.some (s, e, _) =>
      let m := (input.drop s).take (e - s)
      if s < e then m :: rxFindAllAux fl input r rem e
      else if e < input.length then m :: rxFindAllAux fl input r rem (e + 1)
      else [m]

def rxFindAll (fl : RxFlags) (r : Rx) (input : Str) : List Str :=
  rxFindAllAux fl input r (input.length + 2) 0

/-- `re.findall` for a pattern with two capturing groups: the list of
`(group 1, group 2)` tuples. -/
def rxFindAll2Aux (fl : RxFlags) (input : Str) (r : Rx) :
    Nat → Nat → List (Str × Str)
  | 0, _ => []
  | rem + 1, pos =>
    match rxSearchFrom fl input r pos with
    | Option.none => []
    | Option.some (s, e, caps) =>
      let m := (capStr input caps 1, capStr input caps 2)
      if s < e then m :: rxFindAll2Aux fl input r rem e
      else if e < input.length then m :: rxFindAll2Aux fl input r rem (e + 1)
      else [m]

def rxFindAll2 (fl : RxFlags) (r : Rx) (input : Str) : List (Str × Str) :=
  rxFindAll2Aux fl input r (input.length + 2) 0

/-- `re.search(...).group(1)`, or `none` when there is no match. -/
def rxSearchGroup1 (fl : RxFlags) (r : Rx) (input : Str) : Option Str :=
  match rxSearchFrom fl input r 0 with
  | Option.some (_, _, caps) => Option.some (capStr input caps 1)
  | Option.none => Option.none

/-- `re.sub(r, repl, input)`: replace every non-overlapping match. -/
def rxSubAux (fl : RxFlags) (input : Str) (r : Rx) (repl : Str) :
    Nat → Nat → Str
  | 0, pos => input.drop pos
  | rem + 1, pos =>
    match rxSearchFrom fl input r pos with
    | Option.none => input.drop pos
    | Option.some (s, e, _) =>
      ((input.drop pos).take (s - pos)) ++ repl ++
        (if s < e then rxSubAux fl input r repl rem e
         else match input.get? e with
           | Option.some c => c :: rxSubAux fl input r repl rem (e + 1)
           | Option.none => [])

def rxSub (fl : RxFlags) (r : Rx) (repl : Str) (input : Str) : Str :=
  rxSubAux fl input r repl (input.length + 2) 0

/-! ## The concrete patterns of the source -/

/-- `\s` (ASCII). -/
def isSpaceChar (c : Char) : Bool :=
  c = ' ' || c = '\t' || c = '\n' || c = '\r' || c = Char.ofNat 11 || c = Char.ofNat 12

/-- `[A-Za-z0-9._%+-]` (email local part). -/
def emailLocalChar (c : Char) : Bool :=
  isAlphaChar c || isDigitChar c || c = '.' || c = '_' || c = '%' || c = '+' || c = '-'

/-- `[A-Za-z0-9.-]` (email domain). -/
def emailDomChar (c : Char) : Bool :=
  isAlphaChar c || isDigitChar c || c = '.' || c = '-'

/-- `[A-Z|a-z]` — note the literal `|` inside the class, verbatim from the
source. -/
def emailTldChar (c : Char) : Bool := isAlphaChar c || c = '|'

/-- `[^",\n]`. -/
def notQuoteCommaNl (c : Char) : Bool := !(c = '"' || c = ',' || c = '\n')

/-- `[^\s",\n]`. -/
def notSpaceQuoteCommaNl (c : Char) : Bool :=
  !(isSpaceChar c || c = '"' || c = ',' || c = '\n')

/-- `[-a-zA-Z0-9@:%._\+~#=]` (URL body). -/
def urlBodyChar (c : Char) : Bool :=
  isAlphaChar c || isDigitChar c || c = '-' || c = '@' || c = ':' || c = '%' ||
    c = '.' || c = '_' || c = '+' || c = '~' || c = '#' || c = '='

/-- `[a-zA-Z0-9()]` (URL TLD part). -/
def urlTldChar (c : Char) : Bool := isAlphaChar c || isDigitChar c || c = '(' || c = ')'

/-- `[-a-zA-Z0-9()@:%_\+.~#?&//=]` (URL tail). -/
def urlTailChar (c : Char) : Bool :=
  isAlphaChar c || isDigitChar c || c = '-' || c = '(' || c = ')' || c = '@' ||
    c = ':' || c = '%' || c = '_' || c = '+' || c = '.' || c = '~' || c = '#' ||
    c = '?' || c = '&' || c = '/' || c = '='

/-- `[-\*•\d\.\s]` (leading list markers). -/
def markerChar (c : Char) : Bool :=
  c = '-' || c = '*' || c = '•' || isDigitChar c || c = '.' || isSpaceChar c

/-- `\s*`. -/
def wsStar : Rx := .star false (.cls isSpaceChar)

/-- The email pattern of `parse_analysis_results` (company_extractor.py
line 41): `\b[A-Za-z0-9._%+-]+@[A-Za-z0-9.-]+\.[A-Z|a-z]{2,7}\b`. -/
def email_pattern : Rx :=
  rxseq [.wordb, .rep 1 Option.none false (.cls emailLocalChar), .ch '@',
    .rep 1 Option.none false (.cls emailDomChar), .ch '.',
    .rep 2 (Option.some 7) false (.cls emailTldChar), .wordb]

/-- Pain-point pattern 1 (company_extractor.py line 71). -/
def pain_pattern1 : Rx :=
  rxseq [
    rxalts [rxlit "Pain Points", rxlit "Key Challenges",
      rxlit "Identified Opportunities", rxlit "Analysis Summary",
      rxlit "Business Needs", rxlit "Client Issues"],
    wsStar, .ch ':', wsStar, .opt false (.ch '\n'),
    .grp 1 (.star true .anyCh),
    rxalts [rxlit "Email:", rxlit "Contact Email:", rxlit "Contact:",
      rxlit "Suggested Decision Makers:", rxlit "Conclusion:", .strEnd]]

/-- Pain-point pattern 2 (company_extractor.py line 72). -/
def pain_pattern2 : Rx :=
  rxseq [rxlit "Pain Points", wsStar, rxlit "for", wsStar, rxlit "Sponsorship",
    wsStar, .ch ':', wsStar, .opt false (.ch '\n'),
    .grp 1 (.star true .anyCh),
    rxalts [rxlit "Email:", rxlit "Contact Email:", .strEnd]]

/-- Pain-point pattern 3 (company_extractor.py line 73):
`\d\.\s*(.*?)(?:\n\d\.\s|\n\n|\Z)`. -/
def pain_pattern3 : Rx :=
  rxseq [.cls isDigitChar, .ch '.', wsStar, .grp 1 (.star true .anyCh),
    rxalts [rxseq [.ch '\n', .cls isDigitChar, .ch '.', .cls isSpaceChar],
      rxseq [.ch '\n', .ch '\n'], .strEnd]]

/-- `https?://` then a hostful remainder, for the company patterns:
`https?://[^\s",\n]+`. -/
def company_url_rx : Rx :=
  rxseq [rxlit "http", .opt false (.ch 's'), rxlit "://",
    .rep 1 Option.none false (.cls notSpaceQuoteCommaNl)]

/-- Company pattern 1 (utils/parser.py line 166). -/
def company_pattern1 : Rx :=
  rxseq [.opt false (rxalts [rxlit "company", rxlit "name"]),
    wsStar, .ch ':', wsStar, .opt false (.ch '"'),
    .grp 1 (.rep 2 (Option.some 60) false (.cls notQuoteCommaNl)),
    .opt false (.ch '"'), wsStar, .opt false (rxalts [.ch ',', .ch ';']), wsStar,
    .opt false (rxalts [rxlit "website", rxlit "url"]),
    wsStar, .ch ':', wsStar, .opt false (.ch '"'),
    .grp 2 company_url_rx, .opt false (.ch '"')]

/-- Company pattern 2 (utils/parser.py line 167). -/
def company_pattern2 : Rx :=
  rxseq [.opt false (.ch '"'),
    .grp 1 (.rep 2 (Option.some 60) false (.cls notQuoteCommaNl)),
    .opt false (.ch '"'), wsStar, rxalts [.ch '-', .ch ':', .ch '|'], wsStar,
    .opt false (.ch '"'), .grp 2 company_url_rx, .opt false (.ch '"')]

/-- Company pattern 3 (utils/parser.py line 168). -/
def company_pattern3 : Rx :=
  rxseq [.opt false (.ch '"'), rxlit "name", .opt false (.ch '"'),
    wsStar, rxalts [.ch ':', .ch '='], wsStar, .opt false (.ch '"'),
    .grp 1 (.rep 2 (Option.some 60) false (.cls notQuoteCommaNl)),
    .opt false (.ch '"'), .star true .anyCh, .opt false (.ch '"'),
    rxalts [rxlit "website", rxlit "url"], .opt false (.ch '"'),
    wsStar, rxalts [.ch ':', .ch '='], wsStar, .opt false (.ch '"'),
    .grp 2 company_url_rx, .opt false (.ch '"')]

/-- The URL pattern of `parse_url_list` (utils/parser.py line 67). -/
def url_pattern : Rx :=
  rxseq [rxlit "http", .opt false (.ch 's'), rxlit "://",
    .opt false (rxlit "www."),
    .rep 1 (Option.some 256) false (.cls urlBodyChar), .ch '.',
    .rep 1 (Option.some 6) false (.cls urlTldChar), .wordb,
    .star false (.cls urlTailChar)]

/-- Marker-cleanup pattern `^\s*[-\*•\d\.\s]+` (MULTILINE). -/
def marker_pattern1 : Rx :=
  rxseq [.lineStart, wsStar, .rep 1 Option.none false (.cls markerChar)]

/-- Marker-cleanup pattern `\n\s*[-\*•\d\.\s]+`. -/
def marker_pattern2 : Rx :=
  rxseq [.ch '\n', wsStar, .rep 1 Option.none false (.cls markerChar)]

/-- `re.IGNORECASE | re.DOTALL`. -/
def icaseDotall : RxFlags := { icase := true, dotall := true }

/-- `re.IGNORECASE | re.MULTILINE`. -/
def icaseMultiline : RxFlags := { icase := true, multiline := true }

/-- No flags. -/
def noFlags : RxFlags := {}

/-- `re.MULTILINE`. -/
def multilineOnly : RxFlags := { multiline := true }

/-! ## `parse_analysis_results` (company_extractor.py lines 20-115)

This is the analysis parser the enrichment stage actually calls (the variant
in utils/parser.py is a dead older revision of the same function; the
pipeline imports the one below). -/

/-- The parsed `{email, pain_points}` pair. -/
structure AnalysisResult where
  email : Str
  pain_points : Str
deriving DecidableEq, Repr

/-- `invalid_email_domains_or_parts` (company_extractor.py lines 45-51). -/
def invalid_email_parts : List Str :=
  [pys "example.com", pys "yourdomain.com", pys "test.com", pys "sentry.io",
   pys "wixpress.com", pys "wordpress.org", pys "schemas.microsoft.com",
   pys "localhost", pys "example.org", pys "yourname@", pys "email@",
   pys "contact@", pys "info@", pys "sales@",
   pys ".png", pys ".jpg", pys ".gif", pys ".webp", pys ".svg",
   pys "u003e", pys "u003c"]

/-- `e_lower.split('@')[1]` (the text between the first and second `@`). -/
def afterFirstAt (l : Str) : Str :=
  match pySplitOnceAfter '@' l with
  | Option.some r => r.takeWhile (fun c => c != '@')
  | Option.none => []

/-- The per-candidate email filter (company_extractor.py lines 52-59): drop
any match containing a denylisted fragment; additionally (dead code, kept
verbatim) drop generic local parts at `domain.com`/`company.com`. -/
def email_is_valid (e : Str) : Bool :=
  let el := pyLower e
  if invalid_email_parts.any (fun inv => pyContains el inv) then false
  else if (pyStartsWith el (pys "contact@") || pyStartsWith el (pys "info@") ||
        pyStartsWith el (pys "sales@")) &&
      (afterFirstAt el = pys "domain.com" || afterFirstAt el = pys "company.com") then
    false
  else true

/-- The pattern loop of lines 76-83: remember the latest match's stripped
first group; stop as soon as one is longer than 20 characters. -/
def scan_pain_blocks (cleaned : Str) : List Rx → Option Str → Option Str
  | [], acc => acc
  | p :: rest, acc =>
    match rxSearchGroup1 icaseDotall p cleaned with
    | Option.some g =>
      let b := pyStrip g
      if 20 < b.length then Option.some b
      else scan_pain_blocks cleaned rest (Option.some b)
    | Option.none => scan_pain_blocks cleaned rest acc

/-- Split at the first occurrence of a (non-empty) substring:
`l.split(pat, 1)` when the separator occurs. -/
def pySplitSubOnce (pat : Str) : Str → Option (Str × Str)
  | [] => if pat.isPrefixOf [] then Option.some ([], []) else Option.none
  | c :: t =>
    if pat.isPrefixOf (c :: t) then Option.some ([], (c :: t).drop pat.length)
    else
      match pySplitSubOnce pat t with
      | Option.some (b, a) => Option.some (c :: b, a)
      | Option.none => Option.none

/-- The no-labelled-block fallback of lines 88-104. -/
def analysis_fallback (cleaned_result email : Str) : Str :=
  if email ≠ [] then
    match pySplitSubOnce email cleaned_result with
    | Option.some (before, after) =>
      let content_after := pyStrip after
      let content_before := pyStrip before
      if 20 < content_after.length then content_after
      else if 20 < content_before.length then content_before
      else pyStrip (pyReplaceDel email cleaned_result)
    | Option.none =>
      let content_before := pyStrip cleaned_result
      if 20 < content_before.length then content_before
      else pyStrip (pyReplaceDel email cleaned_result)
  else cleaned_result

/-- `parse_analysis_results` (company_extractor.py lines 20-115). -/
def parse_analysis_results (result : PyVal) : AnalysisResult :=
  match result with
  | .str result_s =>
    let cleaned0 := pyStrip result_s
    let cleaned_result :=
      if pyStartsWith (pyUpper cleaned0) (pys "FINAL ANSWER:") then
        match pySplitOnceAfter ':' cleaned0 with
        | Option.some rest => pyStrip rest
        | Option.none => cleaned0
      else cleaned0
    let email_matches := rxFindAll noFlags email_pattern cleaned_result
    let valid_emails := email_matches.filter email_is_valid
    let email := match valid_emails with
      | e :: _ => e
      | [] => []
    let extracted_block :=
      scan_pain_blocks cleaned_result [pain_pattern1, pain_pattern2, pain_pattern3]
        Option.none
    let pain0 :=
      match extracted_block with
      | Option.some b => if b ≠ [] then b else analysis_fallback cleaned_result email
      | Option.none => analysis_fallback cleaned_result email
    let pain1 := pyStrip (rxSub multilineOnly marker_pattern1 [] pain0)
    let pain2 := pyStrip (rxSub noFlags marker_pattern2 (pys "\n") pain1)
    if pyStrip pain2 = [] || pain2 = email then
      ⟨email, pys "No specific pain points identified in the output."⟩
    else ⟨email, pain2⟩
  | _ => ⟨[], pys "Analysis failed - non-string result"⟩

/-! ## `parse_company_data` (utils/parser.py lines 89-196) -/

/-- A returned `{'name': ..., 'website': ...}` candidate. -/
structure Company where
  name : Str
  website : Str
deriving DecidableEq, Repr

/-- The backquote character (the source strips code fences with it). -/
def backquote : Char := Char.ofNat 96

/-- Acceptance test and normalization for one structured item (lines
116-128 / 142-154): `name`/`website` must be strings, the stripped name
non-empty, the stripped website `http`-prefixed, and the *raw* name length
strictly between 1 and 60; the stripped values are what gets returned. -/
def company_from_item (item : PyVal) : Option Company :=
  match item with
  | .dict entries =>
    match dictGet entries (pys "name"), dictGet entries (pys "website") with
    | Option.some (.str name), Option.some (.str website) =>
      if pyStrip name ≠ [] ∧ pyStartsWith (pyStrip website) (pys "http") ∧
          1 < name.length ∧ name.length < 60 then
        Option.some ⟨pyStrip name, pyStrip website⟩
      else Option.none
    | _, _ => Option.none
  | _ => Option.none

/-- Candidates extracted from a structured parse result (JSON or literal). -/
def companies_from_structured (v : Option PyVal) : List Company :=
  match v with
  | Option.some (.list items) => items.filterMap company_from_item
  | _ => []

/-- The input cleaning of lines 107-110: optional `FINAL ANSWER:` removal,
then `.strip().strip('```python').strip('```').strip()`. -/
def cleaned_company_output (agent_output : Str) : Str :=
  let c0 :=
    if pyStartsWith (pyUpper (pyStrip agent_output)) (pys "FINAL ANSWER:") then
      match pySplitOnceAfter ':' agent_output with
      | Option.some rest => pyStrip rest
      | Option.none => agent_output
    else agent_output
  pyStrip (pyStripChars [backquote]
    (pyStripChars [backquote, 'p', 'y', 't', 'h', 'o', 'n'] (pyStrip c0)))

/-- One regex match folded into the accumulator (lines 174-186): strip both
groups, apply the acceptance test, and drop case-insensitive duplicate
names. -/
def add_regex_company (companies : List Company) (m : Str × Str) : List Company :=
  if pyStrip m.1 ≠ [] ∧ pyStartsWith (pyStrip m.2) (pys "http") ∧
      1 < (pyStrip m.1).length ∧ (pyStrip m.1).length < 60 then
    if companies.any (fun c => pyLower c.name = pyLower (pyStrip m.1)) then companies
    else companies ++ [⟨pyStrip m.1, pyStrip m.2⟩]
  else companies

/-- Method 3 (lines 162-190): the three label patterns in order, one shared
accumulator. -/
def companies_via_regex (cleaned : Str) : List Company :=
  (rxFindAll2 icaseMultiline company_pattern1 cleaned ++
   rxFindAll2 icaseMultiline company_pattern2 cleaned ++
   rxFindAll2 icaseMultiline company_pattern3 cleaned).foldl add_regex_company []

/-- `parse_company_data` (utils/parser.py lines 89-196); the enrichment
module imports it as `parse_company_website_list`. -/
def parse_company_data (agent_output : PyVal) : List Company :=
  match agent_output with
  | .str s =>
    let cleaned := cleaned_company_output s
    match companies_from_structured (json_loads cleaned) with
    | [] =>
      match companies_from_structured (literal_eval cleaned) with
      | [] => companies_via_regex cleaned
      | m2 => m2
    | m1 => m1
  | _ => []

/-! ## `parse_url_list` (utils/parser.py lines 15-87) -/

/-- The input cleaning of lines 33-35 (only the `FINAL ANSWER:` removal). -/
def cleaned_url_output (agent_output : Str) : Str :=
  if pyStartsWith (pyUpper (pyStrip agent_output)) (pys "FINAL ANSWER:") then
    match pySplitOnceAfter ':' agent_output with
    | Option.some rest => pyStrip rest
    | Option.none => agent_output
  else agent_output

/-- URLs accepted from a structured parse result (lines 42-43 / 56-57). -/
def urls_from_structured (v : Option PyVal) : List Str :=
  match v with
  | Option.some (.list items) =>
    items.filterMap (fun it =>
      match it with
      | .str s =>
        if pyStartsWith (pyStrip s) (pys "http") then Option.some (pyStrip s)
        else Option.none
      | _ => Option.none)
  | _ => []

/-- `url.strip('.,)("\'')`'s character set. -/
def url_strip_set : List Char := ['.', ',', ')', '(', '"', Char.ofNat 39]

/-- The binary/image suffixes dropped at lines 74-75. -/
def image_exts : List Str :=
  [pys ".png", pys ".jpg", pys ".jpeg", pys ".gif", pys ".css", pys ".js",
   pys ".svg", pys ".webp"]

/-- Order-preserving first-occurrence dedup (lines 78-81). -/
def dedupe_preserving : List Str → List Str → List Str
  | [], acc => acc
  | u :: t, acc =>
    if u ∈ acc then dedupe_preserving t acc else dedupe_preserving t (acc ++ [u])

/-- Method 3 (lines 64-84): regex scan, punctuation strip, image filter,
dedup. -/
def urls_via_regex (cleaned : Str) : List Str :=
  let found := rxFindAll noFlags url_pattern cleaned
  let urls1 := found.map (pyStripChars url_strip_set)
  let urls2 := urls1.filter (fun u => !(image_exts.any (fun ext => pyEndsWith u ext)))
  dedupe_preserving urls2 []

/-- `parse_url_list` (utils/parser.py lines 15-87). -/
def parse_url_list (agent_output : PyVal) : List Str :=
  match agent_output with
  | .str s =>
    let cleaned := cleaned_url_output s
    match urls_from_structured (json_loads cleaned) with
    | [] =>
      match urls_from_structured (literal_eval cleaned) with
      | [] => urls_via_regex cleaned
      | m2 => m2
    | m1 => m1
  | _ => []

/-! ## Extraction stage: `extract_companies_from_url`
(company_extractor.py lines 118-187) -/

/-- Result of one extraction run plus the number of
`generic_scraper_tool` invocations it performed. -/
structure ExtractOutcome where
  result : List Company
  fetch_calls : Nat
deriving DecidableEq, Repr

/-- `extract_companies_from_url` with its collaborators as oracles:
`crew_kickoff` is the outcome of building/kicking off the extraction crew
(`.error` = an exception inside the `try` of lines 145-185 before parsing;
`.ok none` = no raw string could be extracted from the result object;
`.ok (some raw)` = the raw text); `scrape i` is the `i`-th
`generic_scraper_tool` call (which may raise); `fallback_parse` is
`_fallback_list_parser` (BeautifulSoup-based, returns a list and never
raises).

Control flow of the source: after the validity guards, the block at lines
133-142 runs the fetch + structural fallback *unconditionally* — its guard
`if not extracted_company_data:` is trivially true immediately after
`extracted_company_data = []` — although its own log lines label it
`[Fallback]`; only then is the collaborator invoked, the cascade parse
overwrites the result, and a second fetch + fallback runs when the cascade
yields nothing (lines 166-174). -/
def extract_companies_from_url
    (research_agent_valid extraction_task_valid : Bool)
    (crew_kickoff : Except Str (Option Str))
    (scrape : Nat → Except Str Str)
    (fallback_parse : Str → List Company) : ExtractOutcome :=
  if !research_agent_valid then ⟨[], 0⟩
  else if !extraction_task_valid then ⟨[], 0⟩
  else
    let first : List Company :=
      match scrape 0 with
      | .ok page_html => fallback_parse page_html
      | .error _ => []
    match crew_kickoff with
    | .error _ => ⟨first, 1⟩
    | .ok Option.none => ⟨first, 1⟩
    | .ok (Option.some raw) =>
      if raw = [] then ⟨first, 1⟩
      else
        match parse_company_data (.str raw) with
        | [] =>
          match scrape 1 with
          | .ok page_html => ⟨fallback_parse page_html, 2⟩
          | .error _ => ⟨[], 2⟩
        | parsed => ⟨parsed, 1⟩

/-- **C2.** The direct HTTP fetch is *not* invoked "if and only if the
cascade yields zero candidates": with a collaborator output whose cascade
yields exactly one candidate, the fetch has nevertheless been invoked once —
the block at lines 133-142 performs it unconditionally before the
collaborator even runs (its `if not extracted_company_data:` guard is
trivially true right after initialization), contradicting both the claim and
the block's own `[Fallback]` labelling. -/
theorem extract_fetch_unconditional :
    (extract_companies_from_url true true
        (.ok (Option.some
          (pys "[\x7b\"name\": \"Acme Corp\", \"website\": \"https://acme.com\"\x7d]")))
        (fun _ => .error (pys "connection refused"))
        (fun _ => [])).result =
      [⟨pys "Acme Corp", pys "https://acme.com"⟩] ∧
    (extract_companies_from_url true true
        (.ok (Option.some
          (pys "[\x7b\"name\": \"Acme Corp\", \"website\": \"https://acme.com\"\x7d]")))
        (fun _ => .error (pys "connection refused"))
        (fun _ => [])).fetch_calls = 1 := by
  constructor <;> decide

/-! ## Parser robustness and cascade properties (C3, C6, C9) -/

/-- **C3 (counterexample).** On the spec's scenario C input the parser does
*not* return `{email: "info@acme.com", pain_points: "X\nY"}`: the blanket
`'info@'` entry of the email denylist rejects `info@acme.com` outright
(making the dedicated generic-domain check at line 57 dead code), and the
numbered-list pattern (line 73) overwrites the labelled-section match with
its first item only. -/
theorem parse_analysis_scenario_c_refuted :
    parse_analysis_results
        (.str (pys "Contact Email: info@acme.com\nPain Points:\n1. X\n2. Y")) ≠
      ⟨pys "info@acme.com", pys "X\nY"⟩ := by decide

/-- **C3 (amended).** The scenario C input parses to the empty email (the
`'info@'` local part is denylisted regardless of domain) and the pain-points
string `"X"` (the labelled-section match `"1. X\n2. Y"` is only 9 characters
long, so the loop continues and the numbered-list pattern overwrites it with
its lazily-captured first item, `"X"`). -/
theorem parse_analysis_scenario_c_actual :
    parse_analysis_results
        (.str (pys "Contact Email: info@acme.com\nPain Points:\n1. X\n2. Y")) =
      ⟨[], pys "X"⟩ := by decide

/-- **C6 (counterexample).** The structured-data stage performs no
case-insensitive name dedup: a JSON array with names `"Dup Co"` and
`"DUP CO"` yields two candidates whose lower-cased names coincide. -/
theorem parse_company_data_case_dup :
    (parse_company_data (.str (pys "[\x7b\"name\": \"Dup Co\", \"website\": \"https://a.com\"\x7d, \x7b\"name\": \"DUP CO\", \"website\": \"https://b.com\"\x7d]"))).map
        (fun c => pyLower c.name) =
      [pys "dup co", pys "dup co"] := by decide

theorem pyStrip_length_le (l : Str) : (pyStrip l).length ≤ l.length := by
  unfold pyStrip pyRstripP pyLstripP
  have h1 : ((l.dropWhile isWsChar).reverse.dropWhile isWsChar).length ≤
      (l.dropWhile isWsChar).reverse.length := (List.dropWhile_sublist _).length_le
  have h2 : (l.dropWhile isWsChar).length ≤ l.length :=
    (List.dropWhile_sublist _).length_le
  rw [List.length_reverse]
  rw [List.length_reverse] at h1
  omega

/-- The acceptance shape every returned candidate satisfies. -/
def CompanyOk (c : Company) : Prop :=
  pyStartsWith c.website (pys "http") = true ∧ c.name ≠ [] ∧ c.name.length < 60

theorem company_from_item_ok : ∀ {item : PyVal} {c : Company},
    company_from_item item = Option.some c → CompanyOk c := by
  intro item c
  unfold company_from_item
  split
  · split
    · rename_i name website _ _
      intro h
      split at h
      · rename_i hguard
        cases h
        exact ⟨hguard.2.1, hguard.1,
          Nat.lt_of_le_of_lt (pyStrip_length_le name) hguard.2.2.2⟩
      · cases h
    · intro h; cases h
  · intro h; cases h

theorem mem_companies_from_structured {ov : Option PyVal} {c : Company}
    (h : c ∈ companies_from_structured ov) : CompanyOk c := by
  unfold companies_from_structured at h
  match ov with
  | Option.none => cases h
  | Option.some (.str _) => cases h
  | Option.some (.num _) => cases h
  | Option.some (.bool _) => cases h
  | Option.some .none => cases h
  | Option.some (.dict _) => cases h
  | Option.some (.list items) =>
    simp only [List.mem_filterMap] at h
    rcases h with ⟨item, _, hi⟩
    exact company_from_item_ok hi

theorem add_regex_company_ok {acc : List Company} {m : Str × Str}
    (hacc : ∀ c ∈ acc, CompanyOk c) :
    ∀ c ∈ add_regex_company acc m, CompanyOk c := by
  intro c hc
  unfold add_regex_company at hc
  split at hc
  · rename_i hguard
    split at hc
    · exact hacc c hc
    · rcases List.mem_append.mp hc with hc | hc
      · exact hacc c hc
      · simp only [List.mem_singleton] at hc
        subst hc
        exact ⟨hguard.2.1, hguard.1, hguard.2.2.2⟩
  · exact hacc c hc

theorem foldl_add_regex_ok (ms : List (Str × Str)) :
    ∀ (acc : List Company), (∀ c ∈ acc, CompanyOk c) →
      ∀ c ∈ ms.foldl add_regex_company acc, CompanyOk c := by
  induction ms with
  | nil => intro acc hacc; exact hacc
  | cons m t ih =>
    intro acc hacc
    exact ih _ (add_regex_company_ok hacc)

/-- The regex accumulator also keeps lower-cased names pairwise distinct. -/
theorem foldl_add_regex_pairwise (ms : List (Str × Str)) :
    ∀ (acc : List Company),
      acc.Pairwise (fun a b => pyLower a.name ≠ pyLower b.name) →
      (ms.foldl add_regex_company acc).Pairwise
        (fun a b => pyLower a.name ≠ pyLower b.name) := by
  induction ms with
  | nil => intro acc hacc; exact hacc
  | cons m t ih =>
    intro acc hacc
    apply ih
    unfold add_regex_company
    split
    · rename_i hguard
      split
      · exact hacc
      · rename_i hany
        rw [List.pairwise_append]
        refine ⟨hacc, List.pairwise_singleton _ _, ?_⟩
        intro a ha b hb
        simp only [List.mem_singleton] at hb
        subst hb
        intro heq
        apply hany
        exact List.any_eq_true.mpr ⟨a, ha, decide_eq_true heq⟩
    · exact hacc

/-- **C6 (amended).** (i) Every candidate any stage returns has an
`http`-prefixed website and a non-empty name shorter than 60 characters (the
2-to-59 bound is tested on the *raw* name; the returned name is the stripped
raw name, so it can be a single character, e.g. for raw name `" A "`); and
(ii) the case-insensitive name dedup applies only in the regex stage: when
both structured stages produce nothing (so the regex stage answers), the
returned lower-cased names are pairwise distinct — the structured stages
themselves do not deduplicate (see the counterexample). -/
theorem parse_company_data_amended :
    (∀ (v : PyVal) (c : Company), c ∈ parse_company_data v → CompanyOk c) ∧
    (∀ s : Str,
      companies_from_structured (json_loads (cleaned_company_output s)) = [] →
      companies_from_structured (literal_eval (cleaned_company_output s)) = [] →
      (parse_company_data (.str s)).Pairwise
        (fun a b => pyLower a.name ≠ pyLower b.name)) := by
  constructor
  · intro v c hc
    match v with
    | .num _ | .bool _ | .none | .list _ | .dict _ => cases hc
    | .str s =>
      simp only [parse_company_data] at hc
      split at hc
      · split at hc
        · exact foldl_add_regex_ok _ [] (fun c hc => nomatch hc) c hc
        · exact mem_companies_from_structured hc
      · exact mem_companies_from_structured hc
  · intro s h1 h2
    simp only [parse_company_data, h1, h2]
    exact foldl_add_regex_pairwise _ [] List.Pairwise.nil

/-- Witness for the amended C6 at a prose input that reaches the regex
stage. -/
theorem parse_company_data_amended_witness :
    CompanyOk ⟨pys "Acme Co", pys "https://acme.com"⟩ ∧
    (parse_company_data (.str (pys "Acme Co - https://acme.com"))).Pairwise
      (fun a b => pyLower a.name ≠ pyLower b.name) :=
  ⟨parse_company_data_amended.1 (.str (pys "Acme Co - https://acme.com"))
      ⟨pys "Acme Co", pys "https://acme.com"⟩ (by decide),
   parse_company_data_amended.2 (pys "Acme Co - https://acme.com")
      (by decide) (by decide)⟩

/-- **C9.** Parser totality and sentinels: non-string inputs give each
parser's defined empty/sentinel value; when every strategy of a cascade
produces nothing the list parsers return `[]`; and the analysis parser
returns its explicit no-pain-points sentinel on an empty string.  (In this
embedding the parsers are total functions — every Python-level exception of
an inner strategy is caught by the source and modelled by that strategy's
empty result, so no input can raise.) -/
theorem parsers_never_raise :
    (∀ v : PyVal, v.isStr = false → parse_url_list v = []) ∧
    (∀ v : PyVal, v.isStr = false → parse_company_data v = []) ∧
    (∀ v : PyVal, v.isStr = false →
      parse_analysis_results v = ⟨[], pys "Analysis failed - non-string result"⟩) ∧
    (∀ s : Str, urls_from_structured (json_loads (cleaned_url_output s)) = [] →
      urls_from_structured (literal_eval (cleaned_url_output s)) = [] →
      urls_via_regex (cleaned_url_output s) = [] →
      parse_url_list (.str s) = []) ∧
    (∀ s : Str,
      companies_from_structured (json_loads (cleaned_company_output s)) = [] →
      companies_from_structured (literal_eval (cleaned_company_output s)) = [] →
      companies_via_regex (cleaned_company_output s) = [] →
      parse_company_data (.str s) = []) ∧
    parse_analysis_results (.str (pys "")) =
      ⟨[], pys "No specific pain points identified in the output."⟩ := by
  refine ⟨?_, ?_, ?_, ?_, ?_, by decide⟩
  · intro v hv
    match v with
    | .str _ => cases hv
    | .num _ | .bool _ | .none | .list _ | .dict _ => rfl
  · intro v hv
    match v with
    | .str _ => cases hv
    | .num _ | .bool _ | .none | .list _ | .dict _ => rfl
  · intro v hv
    match v with
    | .str _ => cases hv
    | .num _ | .bool _ | .none | .list _ | .dict _ => rfl
  · intro s h1 h2 h3
    simp only [parse_url_list, h1, h2, h3]
  · intro s h1 h2 h3
    simp only [parse_company_data, h1, h2, h3]

/-- Witness for C9 at a non-string input and at a prose string on which
every strategy fails. -/
theorem parsers_never_raise_witness :
    parse_url_list (.num (pys "3")) = [] ∧
    parse_company_data (.bool true) = [] ∧
    parse_analysis_results .none = ⟨[], pys "Analysis failed - non-string result"⟩ ∧
    parse_url_list (.str (pys "no urls at all")) = [] ∧
    parse_company_data (.str (pys "no companies at all")) = [] :=
  ⟨parsers_never_raise.1 (.num (pys "3")) rfl,
   parsers_never_raise.2.1 (.bool true) rfl,
   parsers_never_raise.2.2.1 .none rfl,
   parsers_never_raise.2.2.2.1 (pys "no urls at all") (by decide) (by decide) (by decide),
   parsers_never_raise.2.2.2.2.1 (pys "no companies at all") (by decide) (by decide) (by decide)⟩

end Veneer
